import Mathlib

/-!
# QuizzAI multiplayer quiz: countdown, question flow, leaderboard, ARD quiz

A shallow embedding of the client components `MultiplayerGame.jsx` and
`Leaderboard.jsx`, of the handler of `Server/index.js` and of the serverless
function `generate-quiz/index.ts`.

Conventions of the embedding.

* JavaScript numbers that hold millisecond timestamps, seconds and scores are
  integers (`Int`); `Math.ceil(x / 1000)` on an integer `x` is `ceilDiv1000`.
* A value that may be `null`/`undefined` is an `Option`; the truthiness test
  `if (v)` is `numTruthy` for numbers (non-null and non-zero) and `strTruthy`
  for strings (non-null and non-empty).
* React state of a component is a record; a handler maps the record of the
  render it was created in to the next record. Calls that leave the component
  (`navigate`, `alert`, table updates, `localStorage.removeItem`) are appended
  to the `log` field in program order.
* `Date.now()`, `Math.random()` and `localStorage.getItem` are inputs of the
  handler that reads them.
* A `try` block is a function into `Except String`, the error being the message
  of the thrown `Error`; the `catch` block maps it to the response. What the
  provider does when it is called is an input of the handler, and so are the
  engine functions `JSON.parse`, `toLowerCase`, `toUpperCase` and `sort`.
-/

namespace QuizzAI

/-! ## Data model -/

/-- A question of the shared question set. A property that is absent from the
stored object reads as `undefined`, hence `correct_answer` is optional. -/
structure Question where
  id : String
  category : String
  difficulty : String
  question : String
  options : List String
  correct_answer : Option String
  deriving DecidableEq, Repr

/-- The answer map `selectedAnswers`: a JavaScript object from question id to
answer letter, kept as its list of own properties in insertion order. -/
abbrev Answers := List (String × String)

/-- Property read `map[key]`: `none` is `undefined`. -/
def Answers.get (m : Answers) (key : String) : Option String :=
  match m with
  | [] => none
  | (k, v) :: rest => if k = key then some v else Answers.get rest key

/-- Object spread with one computed key, `{ ...map, [key]: value }`: an
existing property keeps its position and takes the new value, a new property
is appended. -/
def Answers.set (m : Answers) (key value : String) : Answers :=
  match m with
  | [] => [(key, value)]
  | (k, v) :: rest => if k = key then (k, value) :: rest else (k, v) :: Answers.set rest key value

/-- What `supabase.from("rooms").select("questions, game_start_time")` hands to
`loadGame`: both columns are nullable. -/
structure RoomData where
  questions : Option (List Question)
  game_start_time : Option Int
  deriving DecidableEq, Repr

/-- Calls that leave the component, in program order. -/
inductive Effect where
  | alert (msg : String)
  | navigate (path : String)
  | updatePlayer (id : String) (score : Int) (time_taken : Int) (status : String)
  | removeItem (key : String)
  | uncaught (msg : String)
  deriving DecidableEq, Repr

/-- State of one mounted `MultiplayerGame` component. `timerRef` is
`timerRef.current`, `live` the ids of the intervals that have been set and not
cleared, `nextTimer` the id the next `setInterval` returns (ids are positive,
so a stored id is truthy). -/
structure GameState where
  roomCode : String
  questions : List Question
  currentIndex : Nat
  selectedAnswers : Answers
  timeLeft : Int
  endTime : Option Int
  loading : Bool
  playerFinished : Bool
  timerRef : Option Nat
  live : List Nat
  nextTimer : Nat
  log : List Effect
  deriving DecidableEq, Repr

/-- The `useState`/`useRef` initial values of the component. -/
def GameState.init (roomCode : String) : GameState :=
  { roomCode := roomCode, questions := [], currentIndex := 0, selectedAnswers := [],
    timeLeft := 45, endTime := none, loading := true, playerFinished := false,
    timerRef := none, live := [], nextTimer := 1, log := [] }

/-! ## Small JavaScript primitives -/

/-- Truthiness of a nullable number: neither `null` nor `0`. -/
def numTruthy : Option Int → Bool
  | none => false
  | some n => n != 0

/-- Truthiness of a nullable string: neither `null` nor `""`. -/
def strTruthy : Option String → Bool
  | none => false
  | some s => s != ""

/-- The value of `Math.ceil(x / 1000)` for an integer `x`. -/
def ceilDiv1000 (x : Int) : Int := -((-x) / 1000)

/-- The route the game navigates to when the round is over. -/
def leaderboardPath (roomCode : String) : String := "/leaderboard/" ++ roomCode

/-! ## shuffleArray -/

/-- The destructuring swap `[a[i], a[j]] = [a[j], a[i]]` for two indices inside
the array (outside the array the list is returned as it is; the loop of
`shuffleArray` never gets there). -/
def swapAt {α : Type} (a : List α) (i j : Nat) : List α :=
  match a[i]?, a[j]? with
  | some x, some y => (a.set i y).set j x
  | _, _ => a

/-- The two arrays `shuffleArray` has in scope: the caller's `array` and the
local copy `shuffled`. -/
structure ShuffleVars (α : Type) where
  array : List α
  shuffled : List α

/-- The loop `for (let i = ...; i > 0; i--)` from the value `i` on. `draw i` is
the value of `Math.floor(Math.random() * (i + 1))` in the iteration with loop
variable `i`, an index between `0` and `i`. Only `shuffled` is written. -/
def shuffleLoop {α : Type} (draw : (i : Nat) → Fin (i + 1)) : Nat → ShuffleVars α → ShuffleVars α
  | 0, v => v
  | i + 1, v =>
    shuffleLoop draw i { v with shuffled := swapAt v.shuffled (i + 1) (draw (i + 1)).val }

/-- The variables at the `return` of `shuffleArray`. -/
def shuffleArrayVars {α : Type} (array : List α) (draw : (i : Nat) → Fin (i + 1)) : ShuffleVars α :=
  shuffleLoop draw (array.length - 1) { array := array, shuffled := array }

/-- The function `shuffleArray` (Fisher-Yates): the returned array. -/
def shuffleArray {α : Type} (array : List α) (draw : (i : Nat) → Fin (i + 1)) : List α :=
  (shuffleArrayVars array draw).shuffled

/-! ## The countdown -/

/-- The browser call `clearInterval(id)`. -/
def clearInterval (id : Nat) (s : GameState) : GameState :=
  { s with live := s.live.filter (fun t => t != id) }

/-- The guarded call `if (timerRef.current) clearInterval(timerRef.current)`,
also the unguarded call inside the interval callback. -/
def clearRef (s : GameState) : GameState :=
  match s.timerRef with
  | some id => clearInterval id s
  | none => s

/-- The function `startTimer`: clear the interval held by the ref, set a new
one and store its id. -/
def startTimer (s : GameState) : GameState :=
  let s1 := clearRef s
  { s1 with timerRef := some s1.nextTimer, live := s1.nextTimer :: s1.live,
            nextTimer := s1.nextTimer + 1 }

/-- One firing of the interval `id`: the updater passed to `setTimeLeft`. An
interval that has been cleared does not fire. -/
def timerTick (id : Nat) (s : GameState) : GameState :=
  if id ∈ s.live then
    if s.timeLeft ≤ 1 then
      let s1 := clearRef s
      { s1 with timeLeft := 0, log := s1.log ++ [Effect.navigate (leaderboardPath s.roomCode)] }
    else
      { s with timeLeft := s.timeLeft - 1 }
  else s

/-! ## loadGame -/

/-- The function `loadGame`. `fetched` is `none` when the query failed or
returned no row (`error || !room`); `now` is the reading of `Date.now()`.
Spreading a `null` question column throws, which ends the function. -/
def loadGame (s : GameState) (fetched : Option RoomData) (draw : (i : Nat) → Fin (i + 1))
    (now : Int) : GameState :=
  match fetched with
  | none => { s with log := s.log ++ [Effect.alert "Error loading game"] }
  | some room =>
    match room.questions with
    | none => { s with log := s.log ++ [Effect.uncaught "TypeError"] }
    | some roomQuestions =>
      let shuffledQuestions := shuffleArray roomQuestions draw
      let s1 := { s with questions := shuffledQuestions, loading := false }
      if numTruthy room.game_start_time then
        let gameStartTime := room.game_start_time.getD 0
        let gameEndTime := gameStartTime + 45000
        let remainingMs := max 0 (gameEndTime - now)
        let remainingSec := ceilDiv1000 remainingMs
        let s2 := { s1 with endTime := some gameEndTime, timeLeft := remainingSec }
        if remainingSec > 0 then
          startTimer s2
        else
          { s2 with log := s2.log ++ [Effect.navigate (leaderboardPath s2.roomCode)] }
      else
        let calculatedEndTime := now + 45000
        startTimer { s1 with endTime := some calculatedEndTime, timeLeft := 45 }

/-! ## finishGame and handleAnswer -/

/-- The tally loop `questions.forEach(q => { if (...) finalScore += 1 })`. -/
def tally (questions : List Question) (finalAnswersMap : Answers) : Int :=
  questions.foldl
    (fun finalScore q =>
      if Answers.get finalAnswersMap q.id = q.correct_answer then finalScore + 1 else finalScore)
    0

/-- The seconds remaining at finish, the local `timeTaken` of `finishGame`. -/
def secondsRemaining (s : GameState) (now : Int) : Int :=
  if numTruthy s.endTime then max 0 (ceilDiv1000 (s.endTime.getD 0 - now)) else s.timeLeft

/-- The function `finishGame`. `now` is the reading of `Date.now()`, `playerId`
the value of `localStorage.getItem("quiz_player_id")`. -/
def finishGame (s : GameState) (finalAnswersMap : Answers) (now : Int)
    (playerId : Option String) : GameState :=
  let s1 := { s with playerFinished := true }
  let finalScore := tally s.questions finalAnswersMap
  let timeTaken := secondsRemaining s now
  let actualTimeTaken := 45 - timeTaken
  let s2 :=
    if strTruthy playerId then
      { s1 with log := s1.log ++
          [Effect.updatePlayer (playerId.getD "") finalScore (actualTimeTaken * 1000) "finished"] }
    else s1
  { s2 with log := s2.log ++ [Effect.removeItem ("multiplayerGame_" ++ s.roomCode)] }

/-- The function `handleAnswer`. -/
def handleAnswer (s : GameState) (questionId answerLetter : String) (now : Int)
    (playerId : Option String) : GameState :=
  let newSelectedAnswers := Answers.set s.selectedAnswers questionId answerLetter
  let s1 := { s with selectedAnswers := newSelectedAnswers }
  if s.currentIndex + 1 < s.questions.length then
    { s1 with currentIndex := s1.currentIndex + 1 }
  else
    finishGame s1 newSelectedAnswers now playerId

/-! ## The run of a mounted game -/

/-- What can happen to a mounted game after `loadGame`: an interval fires, the
player clicks an option, or `finishGame` is called with its default argument
(the answer map of the state). -/
inductive GameEvent where
  | tick (id : Nat)
  | answer (questionId answerLetter : String) (now : Int) (playerId : Option String)
  | finish (now : Int) (playerId : Option String)
  deriving DecidableEq, Repr

/-- One event applied to the state. -/
def GameState.step (s : GameState) : GameEvent → GameState
  | GameEvent.tick id => timerTick id s
  | GameEvent.answer q a now pid => handleAnswer s q a now pid
  | GameEvent.finish now pid => finishGame s s.selectedAnswers now pid

/-- A sequence of events applied from left to right. -/
def GameState.run (s : GameState) (events : List GameEvent) : GameState :=
  events.foldl GameState.step s

/-- Number of firings of the interval `id` in a sequence of events. -/
def ticksOf (id : Nat) (events : List GameEvent) : Nat :=
  events.countP (fun e => e == GameEvent.tick id)

/-- Number of `navigate` calls in a log. -/
def navCount (log : List Effect) : Nat :=
  log.countP (fun e => match e with | Effect.navigate _ => true | _ => false)

/-! ## Leaderboard: the tables -/

/-- A row of the `players` table. -/
structure PlayerRow where
  id : String
  room_code : String
  name : String
  score : Int
  time_taken : Option Int
  status : String
  deriving DecidableEq, Repr

/-- A row of the `rooms` table. -/
structure RoomRow where
  code : String
  status : String
  questions : Option (List Question)
  game_start_time : Option Int
  deriving DecidableEq, Repr

/-- The two tables the leaderboard reads and writes. -/
structure Database where
  players : List PlayerRow
  rooms : List RoomRow
  deriving DecidableEq, Repr

/-- The columns `select("name, score, time_taken, status")` returns. -/
structure BoardRow where
  name : String
  score : Int
  time_taken : Option Int
  status : String
  deriving DecidableEq, Repr

/-- The projection of a player row on the selected columns. -/
def PlayerRow.selected (p : PlayerRow) : BoardRow :=
  { name := p.name, score := p.score, time_taken := p.time_taken, status := p.status }

/-- A column value of the table store. -/
inductive Cell where
  | null
  | num (n : Int)
  | text (s : String)
  deriving DecidableEq, Repr

/-- The value a player row has in the column of the given name (`null` for a
name that is not a column of the table). -/
def PlayerRow.cell (p : PlayerRow) (column : String) : Cell :=
  if column = "id" then Cell.text p.id
  else if column = "room_code" then Cell.text p.room_code
  else if column = "name" then Cell.text p.name
  else if column = "score" then Cell.num p.score
  else if column = "time_taken" then
    (match p.time_taken with
     | some t => Cell.num t
     | none => Cell.null)
  else if column = "status" then Cell.text p.status
  else Cell.null

/-- One call `.order(column, { ascending })` of the query builder. -/
structure OrderKey where
  column : String
  ascending : Bool
  deriving DecidableEq, Repr

/-- What the builder chain of `loadBoard` sends to the store, apart from the
selected columns (which are `PlayerRow.selected`): the `.eq` filter and the
`.order` calls in their order. -/
structure PlayersRequest where
  eqColumn : String
  eqValue : String
  order : List OrderKey
  deriving DecidableEq, Repr

/-- The request of `loadBoard`: `.eq("room_code", roomCode)`,
`.order("score", { ascending: false })`, `.order("time_taken", { ascending: true })`. -/
def loadBoardRequest (roomCode : String) : PlayersRequest :=
  { eqColumn := "room_code", eqValue := roomCode,
    order := [⟨"score", false⟩, ⟨"time_taken", true⟩] }

/-- Modelled from the spec: the table store that evaluates an `order` key is an
external service and not under `src/`. Three-way comparison of two column
values for an ascending key: numbers by value, texts by the order of strings,
and a missing value after every present one (spec 4.3: "nulls/absent times sort
after present ones by this ordering"; spec 8: "missing time_taken sorts
last"). -/
def cellCompare : Cell → Cell → Ordering
  | Cell.num a, Cell.num b =>
    if a < b then Ordering.lt else if a = b then Ordering.eq else Ordering.gt
  | Cell.text a, Cell.text b =>
    if a < b then Ordering.lt else if a = b then Ordering.eq else Ordering.gt
  | Cell.null, Cell.null => Ordering.eq
  | Cell.null, _ => Ordering.gt
  | _, Cell.null => Ordering.lt
  | Cell.num _, Cell.text _ => Ordering.lt
  | Cell.text _, Cell.num _ => Ordering.gt

/-- Modelled from the spec: the table store is not under `src/`. Its
comparison of two rows by one `order` key; a descending key is the ascending
comparison with the rows exchanged. -/
def keyCompare (k : OrderKey) (a b : PlayerRow) : Ordering :=
  if k.ascending then cellCompare (a.cell k.column) (b.cell k.column)
  else cellCompare (b.cell k.column) (a.cell k.column)

/-- Modelled from the spec: the table store is not under `src/`. Its
comparison of two rows by a list of `order` keys: the first key decides, a later
key breaks the ties of the earlier ones (spec 8: "primary key score descending,
tie-break time_taken ascending"). -/
def rowCompare : List OrderKey → PlayerRow → PlayerRow → Ordering
  | [], _, _ => Ordering.eq
  | k :: ks, a, b =>
    match keyCompare k a b with
    | Ordering.eq => rowCompare ks a b
    | o => o

/-- Modelled from the spec: the table store is not under `src/`. A row may
stand before another in its response when it does not compare greater. -/
def rowLe (keys : List OrderKey) (a b : PlayerRow) : Bool :=
  rowCompare keys a b != Ordering.gt

/-- Modelled from the spec: the table store is not under `src/`. Its response
to a request on the `players` table: the rows whose filter column holds the
filter value, ordered by the `order` keys, each reduced to the selected columns
(spec 4.3: "queries all players for the room ordered by score descending then
time_taken ascending"). Rows that the keys do not separate come in the order the
store delivers them; here a stable sort. -/
def runPlayersRequest (players : List PlayerRow) (request : PlayersRequest) : List BoardRow :=
  ((players.filter (fun p => p.cell request.eqColumn == Cell.text request.eqValue)).mergeSort
    (rowLe request.order)).map PlayerRow.selected

/-- The `data` of the query of `loadBoard` on a database state. -/
def playersQuery (db : Database) (roomCode : String) : List BoardRow :=
  runPlayersRequest db.players (loadBoardRequest roomCode)

/-- The order of the time column in the words of the spec: ascending, a
missing time after every present one. -/
def timeTakenLe : Option Int → Option Int → Bool
  | some x, some y => decide (x ≤ y)
  | some _, none => true
  | none, some _ => false
  | none, none => true

/-- The leaderboard order in the words of the spec: score descending, ties
broken by the time ascending, a missing time last. It is compared with `rowLe`
on the keys of `loadBoardRequest`. -/
def boardLe (a b : BoardRow) : Bool :=
  decide (b.score < a.score) || (a.score == b.score && timeTakenLe a.time_taken b.time_taken)

/-- State of one mounted `Leaderboard` component. -/
structure BoardState where
  roomCode : String
  board : List BoardRow
  loading : Bool
  log : List Effect
  deriving DecidableEq, Repr

/-- The function `loadBoard`, given the `data` of the query response (`none`
is a null `data`): `setBoard(data || [])`, `setLoading(false)`. -/
def loadBoard (s : BoardState) (data : Option (List BoardRow)) : BoardState :=
  { s with board := data.getD [], loading := false }

/-- The update `.update({ score: 0, time_taken: null, status: "joined" })
.eq("room_code", roomCode)` on the `players` table. -/
def resetPlayers (roomCode : String) (players : List PlayerRow) : List PlayerRow :=
  players.map (fun p =>
    if p.room_code = roomCode then { p with score := 0, time_taken := none, status := "joined" }
    else p)

/-- The update `.update({ status: "waiting", questions: null, game_start_time: null })
.eq("code", roomCode)` on the `rooms` table. -/
def resetRoom (roomCode : String) (rooms : List RoomRow) : List RoomRow :=
  rooms.map (fun r =>
    if r.code = roomCode then
      { r with status := "waiting", questions := none, game_start_time := none }
    else r)

/-- The function `handleRematch`: the two updates, then the navigation to the
lobby. -/
def handleRematch (s : BoardState) (db : Database) : BoardState × Database :=
  let db1 := { db with players := resetPlayers s.roomCode db.players }
  let db2 := { db1 with rooms := resetRoom s.roomCode db1.rooms }
  ({ s with log := s.log ++ [Effect.navigate ("/lobby/" ++ s.roomCode)] }, db2)

/-! ## Standalone server: the ARD branch of `POST /api/quiz` -/

/-- An entry of the local question bank `AI/ard.json`. -/
structure ArdQuestion where
  question : String
  options : List String
  answer : String
  deriving DecidableEq, Repr

/-- A question of the response. An `undefined` property is dropped by
`res.json`, so `correct_answer` is optional. -/
structure QuizQuestion where
  id : String
  category : String
  difficulty : String
  question : String
  options : List String
  correct_answer : Option String
  explanation : String
  deriving DecidableEq, Repr

/-- The body `quizJson` of a successful response. -/
structure Quiz where
  quiz_id : String
  questions : List QuizQuestion
  deriving DecidableEq, Repr

/-- The array method `options.indexOf(answer)`: the first index holding the
value, `-1` when there is none. -/
def indexOf (options : List String) (answer : String) : Int :=
  match options.findIdx? (fun o => o == answer) with
  | some i => (i : Int)
  | none => -1

/-- The lookup `['A', 'B', 'C', 'D'][i]`: `undefined` outside `0..3`. -/
def letterAt (i : Int) : Option String :=
  if 0 ≤ i then ["A", "B", "C", "D"][i.toNat]? else none

/-- The difficulty written into every question of the ARD quiz. `toLowerCase`
is the string method of that name. -/
def ardDifficulty (toLowerCase : String → String) (difficulty : Option String) : String :=
  if strTruthy difficulty && difficulty != some "Mixed" then toLowerCase (difficulty.getD "")
  else "medium"

/-- The callback of `selected.map((q, index) => ...)`. -/
def ardItem (toLowerCase : String → String) (difficulty : Option String) (index : Nat)
    (q : ArdQuestion) : QuizQuestion :=
  { id := "q" ++ toString (index + 1),
    category := "ARD",
    difficulty := ardDifficulty toLowerCase difficulty,
    question := q.question,
    options := q.options,
    correct_answer := letterAt (indexOf q.options q.answer),
    explanation := "Зөв хариулт: " ++ q.answer }

/-- The ARD branch of the handler. `bank` is the parsed content of
`AI/ard.json`; `sortRandom` is the array method `sort` called with the
comparator `() => Math.random() - 0.5`, which rearranges the bank in a way the
engine and the draws decide; `now` is the reading of `Date.now()`. -/
def ardQuiz (sortRandom : List ArdQuestion → List ArdQuestion) (toLowerCase : String → String)
    (bank : List ArdQuestion) (difficulty : Option String) (now : Int) : Quiz :=
  let shuffled := sortRandom bank
  let selected := shuffled.take 10
  { quiz_id := "ard_quiz_" ++ toString now,
    questions := selected.enum.map (fun iq => ardItem toLowerCase difficulty iq.1 iq.2) }

/-! ## The rendered view of the game -/

/-- What the component returns from a render: the loading text, the waiting
screen, the text "Error: Question not found", or the card of a question. -/
inductive View where
  | loading
  | waiting
  | notFound
  | question (q : Question)
  deriving DecidableEq, Repr

/-- The `return` statements at the end of `MultiplayerGame`, in their order.
`Object.keys(selectedAnswers).length` is the number of entries of the map. -/
def render (s : GameState) : View :=
  if s.loading then View.loading
  else if s.playerFinished && decide (s.selectedAnswers.length > 0) then View.waiting
  else
    match s.questions[s.currentIndex]? with
    | none => View.notFound
    | some question => View.question question

/-- A click on an option button of the rendered card: the `onClick` handler
`() => handleAnswer(question.id, letter)` of the current render. A view without
a card has no button, so nothing happens. -/
def clickOption (s : GameState) (letter : String) (now : Int) (playerId : Option String) :
    GameState :=
  match render s with
  | View.question question => handleAnswer s question.id letter now playerId
  | _ => s

/-- A call of `handleAnswer` with its arguments and the readings it makes. -/
structure AnswerCall where
  questionId : String
  answerLetter : String
  now : Int
  playerId : Option String
  deriving DecidableEq, Repr

/-- A sequence of `handleAnswer` calls, each made on the state the previous one
left. -/
def GameState.answers (s : GameState) (calls : List AnswerCall) : GameState :=
  calls.foldl (fun st c => handleAnswer st c.questionId c.answerLetter c.now c.playerId) s

/-- A sequence of clicks on option buttons, each on the view of the state the
previous one left. -/
def GameState.clicks (s : GameState) (calls : List AnswerCall) : GameState :=
  calls.foldl (fun st c => clickOption st c.answerLetter c.now c.playerId) s

/-! ## Quiz generation: the AI path of the two handlers -/

/-- A value produced by `JSON.parse`. -/
inductive Json where
  | null
  | bool (b : Bool)
  | num (n : Rat)
  | str (s : String)
  | arr (items : List Json)
  | obj (fields : List (String × Json))

/-- Own-property lookup in a parsed object. -/
def lookupField (key : String) : List (String × Json) → Option Json
  | [] => none
  | (k, v) :: rest => if k = key then some v else lookupField key rest

/-- The property read `quizJson.questions`: it throws on `null`, gives the
property on an object and `undefined` on any other value. -/
def Json.questions (quizJson : Json) : Except String (Option Json) :=
  match quizJson with
  | Json.null => Except.error "Cannot read properties of null (reading 'questions')"
  | Json.obj fields => Except.ok (lookupField "questions" fields)
  | _ => Except.ok none

/-- Truthiness of a value that may be `undefined`. -/
def jsonTruthy : Option Json → Bool
  | none => false
  | some Json.null => false
  | some (Json.bool b) => b
  | some (Json.num n) => n != 0
  | some (Json.str s) => s != ""
  | some (Json.arr _) => true
  | some (Json.obj _) => true

/-- The test `Array.isArray(v)`. -/
def isArray : Option Json → Bool
  | some (Json.arr _) => true
  | _ => false

/-- The value of `v.length` for an array. -/
def arrayLength : Option Json → Nat
  | some (Json.arr items) => items.length
  | _ => 0

/-- The block "Validate quiz structure" of both handlers. -/
def validateQuiz (quizJson : Json) : Except String Unit :=
  match Json.questions quizJson with
  | Except.error message => Except.error message
  | Except.ok questions =>
    if !jsonTruthy questions || !isArray questions || arrayLength questions == 0 then
      Except.error "Invalid quiz structure: questions array is missing or empty"
    else Except.ok ()

/-- Whether a list of characters starts with a given list. -/
def startsWith : List Char → List Char → Bool
  | [], _ => true
  | _ :: _, [] => false
  | p :: ps, c :: cs => p == c && startsWith ps cs

/-- The string method `includes` on lists of characters. -/
def includes (needle : List Char) : List Char → Bool
  | [] => needle.isEmpty
  | c :: rest => startsWith needle (c :: rest) || includes needle rest

/-- The global replacement by the empty string of the pattern: a fence of
three backticks followed by `json` and an optional line feed, or a bare fence.
`skip` counts the characters of the current match still to be dropped. -/
def stripFences : Nat → List Char → List Char
  | _, [] => []
  | skip + 1, _ :: rest => stripFences skip rest
  | 0, c :: rest =>
    if startsWith "```json".toList (c :: rest) then
      if startsWith ['\n'] (rest.drop 6) then stripFences 7 rest else stripFences 6 rest
    else if startsWith "```".toList (c :: rest) then stripFences 2 rest
    else c :: stripFences 0 rest

/-- White space and line terminators, the characters `trim` removes. -/
def isTrimmed (c : Char) : Bool :=
  let n := c.toNat
  n == 9 || n == 10 || n == 11 || n == 12 || n == 13 || n == 32 || n == 160 || n == 5760
    || (8192 ≤ n && n ≤ 8202) || n == 8232 || n == 8233 || n == 8239 || n == 8287
    || n == 12288 || n == 65279

/-- The string method `trim`. -/
def trim (cs : List Char) : List Char :=
  ((cs.dropWhile isTrimmed).reverse.dropWhile isTrimmed).reverse

/-- The block "Remove markdown code blocks if present" of both handlers. -/
def cleanContent (quizContent : String) : String :=
  if includes "```".toList quizContent.toList then
    String.mk (trim (stripFences 0 quizContent.toList))
  else quizContent

/-- The functions of the JavaScript engine the handlers call: the two case
conversions of strings, `JSON.parse` (an error carries the message of the
`SyntaxError`), and the array method `sort` with the random comparator. -/
structure Engine where
  toLowerCase : String → String
  toUpperCase : String → String
  jsonParse : String → Except String Json
  sortRandom : List ArdQuestion → List ArdQuestion

/-- The body `{ category, difficulty }` of a request. -/
structure QuizRequest where
  category : Option String
  difficulty : Option String
  deriving DecidableEq, Repr

/-- What `groq.chat.completions.create` does when it is called: it rejects
with an `Error` carrying a message, or it resolves with a completion whose
`choices[0]?.message?.content` is the given value. -/
inductive ProviderOutcome where
  | throws (message : String)
  | completion (content : Option String)
  deriving DecidableEq, Repr

/-- The two messages of a call of the provider. -/
structure ProviderCall where
  system : String
  user : String
  deriving DecidableEq, Repr

/-- The body of a response. -/
inductive Body where
  | quiz (q : Quiz)
  | json (v : Json)
  | failure (error details : String)
  | text (t : String)

/-- A response: status and body. -/
structure Response where
  status : Nat
  body : Body

/-- A handled request: the response and the calls of the provider made on the
way, in order. -/
structure Handled where
  response : Response
  calls : List ProviderCall

/-- The difficulty instruction appended to the user prompt (the same statement
in both handlers). -/
def difficultyInstruction (E : Engine) (difficulty : Option String) : String :=
  if strTruthy difficulty && difficulty != some "Mixed" then
    "\n\nDIFFICULTY REQUIREMENT: ALL 10 questions MUST be "
      ++ E.toUpperCase (difficulty.getD "")
      ++ " difficulty ONLY. Every question's \"difficulty\" field must be \""
      ++ E.toLowerCase (difficulty.getD "") ++ "\"."
  else
    "\n\nDIFFICULTY REQUIREMENT: Use mixed difficulty with the standard distribution (4 easy, 4 medium, 2 hard questions)."

/-- The user prompt of the standalone server. `seed` is the rendering of
`Date.now() + Math.random()`. -/
def serverUserPrompt (E : Engine) (req : QuizRequest) (seed : String) : String :=
  let userPrompt :=
    if strTruthy req.category && req.category != some "Mixed" then
      "Generate a completely new and unique quiz about " ++ req.category.getD ""
        ++ ". IMPORTANT: ALL 10 questions MUST be ONLY about " ++ req.category.getD ""
        ++ ". Do not include any other categories. Every question's \"category\" field must be \""
        ++ req.category.getD "" ++ "\". (seed: " ++ seed ++ ")"
    else
      "Generate a completely new and unique quiz with mixed categories (seed: " ++ seed ++ ")."
  userPrompt ++ difficultyInstruction E req.difficulty

/-- The character class of the test in the serverless function: the Cyrillic
letters from U+0430 to U+044F and from U+0410 to U+042F and the four letters
U+04E9, U+04E8, U+04AF, U+04AE. -/
def isMongolianLetter (c : Char) : Bool :=
  let n := c.toNat
  (1072 ≤ n && n ≤ 1103) || (1040 ≤ n && n ≤ 1071) || n == 1257 || n == 1256 || n == 1199
    || n == 1198

/-- The user prompt of the serverless function. -/
def functionUserPrompt (E : Engine) (req : QuizRequest) (seed : String) : String :=
  let userPrompt :=
    if strTruthy req.category && req.category != some "Mixed" then
      let about :=
        "Generate a completely new and unique quiz about " ++ req.category.getD ""
          ++ ". IMPORTANT: ALL 10 questions MUST be ONLY about " ++ req.category.getD ""
          ++ ". Do not include any other categories. Every question's \"category\" field must be \""
          ++ req.category.getD "" ++ "\". (seed: " ++ seed ++ ")"
      if (req.category.getD "").toList.any isMongolianLetter then
        about ++ "\n\nLANGUAGE REQUIREMENT: The category is Mongolian. Therefore, ALL questions, options, and explanations MUST be in MONGOLIAN."
      else about
    else
      "Generate a completely new and unique quiz with mixed categories (seed: " ++ seed ++ ")."
  userPrompt ++ difficultyInstruction E req.difficulty

/-- The standalone server from the completion to the validated quiz: the
statements between the provider call and `res.json(quizJson)`. -/
def serverQuizJson (E : Engine) (quizContent : Option String) : Except String Json :=
  if !strTruthy quizContent then Except.error "No content received from AI"
  else
    match E.jsonParse (cleanContent (quizContent.getD "")) with
    | Except.error message => Except.error message
    | Except.ok quizJson =>
      match validateQuiz quizJson with
      | Except.error message => Except.error message
      | Except.ok _ => Except.ok quizJson

/-- The `try` block of the standalone server: the calls made and the response
sent, or the message of the error thrown. `rule` is the content of
`AI/Rule.txt`, `bank` that of `AI/ard.json`. -/
def serverTry (E : Engine) (rule : String) (bank : List ArdQuestion) (now : Int) (seed : String)
    (req : QuizRequest) (outcome : ProviderOutcome) : List ProviderCall × Except String Response :=
  if req.category = some "ARD" then
    ([], Except.ok ⟨200, Body.quiz (ardQuiz E.sortRandom E.toLowerCase bank req.difficulty now)⟩)
  else
    let call : ProviderCall := ⟨rule, serverUserPrompt E req seed⟩
    match outcome with
    | ProviderOutcome.throws message => ([call], Except.error message)
    | ProviderOutcome.completion quizContent =>
      match serverQuizJson E quizContent with
      | Except.error message => ([call], Except.error message)
      | Except.ok quizJson => ([call], Except.ok ⟨200, Body.json quizJson⟩)

/-- The handler `app.post('/api/quiz', ...)`: the `try` block and its `catch`. -/
def serverHandler (E : Engine) (rule : String) (bank : List ArdQuestion) (now : Int)
    (seed : String) (req : QuizRequest) (outcome : ProviderOutcome) : Handled :=
  match serverTry E rule bank now seed req outcome with
  | (calls, Except.ok response) => ⟨response, calls⟩
  | (calls, Except.error message) =>
    ⟨⟨500, Body.failure "Failed to generate quiz" message⟩, calls⟩

/-- The serverless function from the completion to the validated quiz. -/
def functionQuizJson (E : Engine) (quizContent : Option String) : Except String Json :=
  if !strTruthy quizContent then Except.error "No content received from AI"
  else
    match E.jsonParse (cleanContent (quizContent.getD "")) with
    | Except.error message => Except.error message
    | Except.ok quizJson =>
      match validateQuiz quizJson with
      | Except.error message => Except.error message
      | Except.ok _ => Except.ok quizJson

/-- The `try` block of the serverless function. `systemPrompt` is the constant
`SYSTEM_PROMPT`. -/
def functionTry (E : Engine) (systemPrompt : String) (seed : String) (req : QuizRequest)
    (outcome : ProviderOutcome) : List ProviderCall × Except String Response :=
  let call : ProviderCall := ⟨systemPrompt, functionUserPrompt E req seed⟩
  match outcome with
  | ProviderOutcome.throws message => ([call], Except.error message)
  | ProviderOutcome.completion quizContent =>
    match functionQuizJson E quizContent with
    | Except.error message => ([call], Except.error message)
    | Except.ok quizJson => ([call], Except.ok ⟨200, Body.json quizJson⟩)

/-- The handler passed to `serve`: the answer to a preflight request, then the
`try` block and its `catch` (every thrown value is an `Error`, so the message
sent is its `message`). -/
def functionHandler (E : Engine) (systemPrompt : String) (method : String) (seed : String)
    (req : QuizRequest) (outcome : ProviderOutcome) : Handled :=
  if method = "OPTIONS" then ⟨⟨200, Body.text "ok"⟩, []⟩
  else
    match functionTry E systemPrompt seed req outcome with
    | (calls, Except.ok response) => ⟨response, calls⟩
    | (calls, Except.error message) =>
      ⟨⟨500, Body.failure "Failed to generate quiz" message⟩, calls⟩

/-! ## Basic facts -/

/-- `ceilDiv1000` is the ceiling of the exact quotient. -/
theorem ceilDiv1000_eq_ceil (x : Int) : ceilDiv1000 x = ⌈(x : ℚ) / 1000⌉ := by
  unfold ceilDiv1000
  symm
  rw [Int.ceil_eq_iff]
  have h1 := Int.emod_add_ediv (-x) 1000
  have h2 := Int.emod_nonneg (-x) (by norm_num : (1000 : Int) ≠ 0)
  have h3 := Int.emod_lt_of_pos (-x) (by norm_num : (0 : Int) < 1000)
  constructor
  · rw [lt_div_iff₀ (by norm_num : (0 : ℚ) < 1000)]
    have : (-(-x / 1000) - 1) * 1000 < x := by omega
    exact_mod_cast this
  · rw [div_le_iff₀ (by norm_num : (0 : ℚ) < 1000)]
    have : x ≤ (-(-x / 1000)) * 1000 := by omega
    exact_mod_cast this

theorem ceilDiv1000_pos {x : Int} (h : 0 < x) : 0 < ceilDiv1000 x := by
  unfold ceilDiv1000; omega

theorem ceilDiv1000_nonpos {x : Int} (h : x ≤ 0) : ceilDiv1000 x ≤ 0 := by
  unfold ceilDiv1000; omega

theorem ceilDiv1000_mono {x y : Int} (h : x ≤ y) : ceilDiv1000 x ≤ ceilDiv1000 y := by
  unfold ceilDiv1000; omega

/-! ## Facts about the countdown primitives -/

theorem clearRef_timeLeft (s : GameState) : (clearRef s).timeLeft = s.timeLeft := by
  unfold clearRef clearInterval; split <;> rfl

theorem clearRef_endTime (s : GameState) : (clearRef s).endTime = s.endTime := by
  unfold clearRef clearInterval; split <;> rfl

theorem clearRef_log (s : GameState) : (clearRef s).log = s.log := by
  unfold clearRef clearInterval; split <;> rfl

theorem clearRef_roomCode (s : GameState) : (clearRef s).roomCode = s.roomCode := by
  unfold clearRef clearInterval; split <;> rfl

theorem clearRef_timerRef (s : GameState) : (clearRef s).timerRef = s.timerRef := by
  unfold clearRef clearInterval; split <;> rfl

theorem clearRef_nextTimer (s : GameState) : (clearRef s).nextTimer = s.nextTimer := by
  unfold clearRef clearInterval; split <;> rfl

/-- What `loadGame` leaves in the state when the room has a question array and
a truthy start time: the remaining seconds, the end time, and either a started
timer or one navigation. -/
theorem loadGame_started (s : GameState) (qs : List Question)
    (draw : (i : Nat) → Fin (i + 1)) (T now : Int) (hT : T ≠ 0) :
    loadGame s (some ⟨some qs, some T⟩) draw now =
      if ceilDiv1000 (max 0 (T + 45000 - now)) > 0 then
        startTimer { s with questions := shuffleArray qs draw, loading := false,
                            endTime := some (T + 45000),
                            timeLeft := ceilDiv1000 (max 0 (T + 45000 - now)) }
      else
        { s with questions := shuffleArray qs draw, loading := false,
                 endTime := some (T + 45000),
                 timeLeft := ceilDiv1000 (max 0 (T + 45000 - now)),
                 log := s.log ++ [Effect.navigate (leaderboardPath s.roomCode)] } := by
  simp [loadGame, numTruthy, hT]

theorem loadGame_timeLeft_eq (s : GameState) (qs : List Question)
    (draw : (i : Nat) → Fin (i + 1)) (T now : Int) (hT : T ≠ 0) :
    (loadGame s (some ⟨some qs, some T⟩) draw now).timeLeft
      = ceilDiv1000 (max 0 (T + 45000 - now)) := by
  rw [loadGame_started s qs draw T now hT]
  split
  · simp [startTimer, clearRef_timeLeft]
  · rfl

theorem loadGame_endTime_eq (s : GameState) (qs : List Question)
    (draw : (i : Nat) → Fin (i + 1)) (T now : Int) (hT : T ≠ 0) :
    (loadGame s (some ⟨some qs, some T⟩) draw now).endTime = some (T + 45000) := by
  rw [loadGame_started s qs draw T now hT]
  split
  · simp [startTimer, clearRef_endTime]
  · rfl

/-- Taking the ceiling after clamping at zero is clamping the ceiling. -/
theorem ceilDiv1000_max (x : Int) : ceilDiv1000 (max 0 x) = max 0 (ceilDiv1000 x) := by
  rcases le_total x 0 with h | h
  · rw [max_eq_left h, max_eq_left (ceilDiv1000_nonpos h)]; rfl
  · rw [max_eq_right h, max_eq_right]
    have := ceilDiv1000_mono h
    simpa [ceilDiv1000] using this

/-! ## C1 -/

/-- C1: in `loadGame`, for a room with a question array and a truthy start time
`T` and every clock reading `now`, the `timeLeft` that is set equals
`max(0, ceil((T + 45000 - now) / 1000))` and the stored end time is `T + 45000`;
for `now = T + 10000` the remaining time is exactly 35, and for `now = T + d`
with `0 ≤ d ≤ 45000` it is within 1 of `(45000 - d) / 1000`. -/
theorem loadGame_remaining (s : GameState) (qs : List Question)
    (draw : (i : Nat) → Fin (i + 1)) (T now : Int) (hT : T ≠ 0) :
    (loadGame s (some ⟨some qs, some T⟩) draw now).timeLeft
        = max 0 ⌈((T + 45000 - now : Int) : ℚ) / 1000⌉
      ∧ (loadGame s (some ⟨some qs, some T⟩) draw now).endTime = some (T + 45000)
      ∧ (now = T + 10000 → (loadGame s (some ⟨some qs, some T⟩) draw now).timeLeft = 35)
      ∧ (∀ d : Int, 0 ≤ d → d ≤ 45000 → now = T + d →
          |((loadGame s (some ⟨some qs, some T⟩) draw now).timeLeft : ℚ)
              - (45000 - (d : ℚ)) / 1000| ≤ 1) := by
  have hceil : (loadGame s (some ⟨some qs, some T⟩) draw now).timeLeft
      = max 0 ⌈((T + 45000 - now : Int) : ℚ) / 1000⌉ := by
    rw [loadGame_timeLeft_eq s qs draw T now hT, ceilDiv1000_max, ceilDiv1000_eq_ceil]
  refine ⟨hceil, loadGame_endTime_eq s qs draw T now hT, ?_, ?_⟩
  · intro hnow
    rw [loadGame_timeLeft_eq s qs draw T now hT, hnow]
    have : T + 45000 - (T + 10000) = 35000 := by ring
    rw [this]; decide
  · intro d hd0 hd1 hnow
    rw [hceil, hnow]
    have hx : ((T + 45000 - (T + d) : Int) : ℚ) / 1000 = (45000 - (d : ℚ)) / 1000 := by
      push_cast; ring
    rw [hx]
    have hnn : (0 : ℚ) ≤ (45000 - (d : ℚ)) / 1000 := by
      apply div_nonneg _ (by norm_num)
      have : (d : ℚ) ≤ 45000 := by exact_mod_cast hd1
      linarith
    have h0 : (0 : Int) ≤ ⌈(45000 - (d : ℚ)) / 1000⌉ := Int.ceil_nonneg hnn
    rw [max_eq_right h0]
    have h1 := Int.le_ceil ((45000 - (d : ℚ)) / 1000)
    have h2 := Int.ceil_lt_add_one ((45000 - (d : ℚ)) / 1000)
    rw [abs_le]
    constructor <;> linarith

/-- C1, instance: start time 1000, clock 11000, no questions. -/
theorem loadGame_remaining_witness :
    (loadGame (GameState.init "ROOM") (some ⟨some [], some 1000⟩) (fun _ => 0) 11000).timeLeft
      = 35 :=
  (loadGame_remaining (GameState.init "ROOM") [] (fun _ => 0) 1000 11000 (by decide)).2.2.1
    (by decide)

/-! ## C2 -/

/-- C2 as stated fails on "without rendering any question". A freshly mounted
game loads a room of one question with start time 1000 at clock 47000: the
navigation to the leaderboard is logged, and the state `loadGame` leaves has
`loading = false` and the question stored, so the view of the component is the
card of that question. -/
theorem loadGame_redirect_shows_question :
    (loadGame (GameState.init "ROOM")
        (some ⟨some [⟨"q1", "c", "easy", "?", ["a", "b"], some "A"⟩], some 1000⟩)
        (fun _ => 0) 47000).log = [Effect.navigate "/leaderboard/ROOM"]
      ∧ render (loadGame (GameState.init "ROOM")
          (some ⟨some [⟨"q1", "c", "easy", "?", ["a", "b"], some "A"⟩], some 1000⟩)
          (fun _ => 0) 47000)
        = View.question ⟨"q1", "c", "easy", "?", ["a", "b"], some "A"⟩ := by
  decide

/-- C2, amended: in `loadGame`, for a room with a question array and a truthy
start time `T`: when `now ≥ T + 45000` the remaining time is 0, the one call
added to the log is the navigation to `/leaderboard/<roomCode>` and no interval
is set (the ref, the live intervals and the id counter are as before); the
shuffled questions and `loading = false` have been stored before that, and no
guard of the view looks at the timer, so for a game that has not finished the
view of the resulting state is the card of the question at the current index;
when `now < T + 45000` the timer is started (a new live interval is held by the
ref, with a positive remaining time) and `loadGame` adds no call to the log. -/
theorem loadGame_redirect (s : GameState) (qs : List Question)
    (draw : (i : Nat) → Fin (i + 1)) (T now : Int) (hT : T ≠ 0) :
    (T + 45000 ≤ now →
        (loadGame s (some ⟨some qs, some T⟩) draw now).timeLeft = 0
        ∧ (loadGame s (some ⟨some qs, some T⟩) draw now).log
            = s.log ++ [Effect.navigate ("/leaderboard/" ++ s.roomCode)]
        ∧ (loadGame s (some ⟨some qs, some T⟩) draw now).live = s.live
        ∧ (loadGame s (some ⟨some qs, some T⟩) draw now).timerRef = s.timerRef
        ∧ (loadGame s (some ⟨some qs, some T⟩) draw now).nextTimer = s.nextTimer
        ∧ (loadGame s (some ⟨some qs, some T⟩) draw now).questions = shuffleArray qs draw
        ∧ (loadGame s (some ⟨some qs, some T⟩) draw now).loading = false
        ∧ (s.playerFinished = false → ∀ q : Question,
            (shuffleArray qs draw)[s.currentIndex]? = some q →
            render (loadGame s (some ⟨some qs, some T⟩) draw now) = View.question q))
      ∧ (now < T + 45000 →
        0 < (loadGame s (some ⟨some qs, some T⟩) draw now).timeLeft
        ∧ (loadGame s (some ⟨some qs, some T⟩) draw now).log = s.log
        ∧ (loadGame s (some ⟨some qs, some T⟩) draw now).timerRef = some s.nextTimer
        ∧ s.nextTimer ∈ (loadGame s (some ⟨some qs, some T⟩) draw now).live) := by
  constructor
  · intro h
    have hz : ceilDiv1000 (max 0 (T + 45000 - now)) = 0 := by
      rw [max_eq_left (by omega)]; rfl
    rw [loadGame_started s qs draw T now hT, hz]
    refine ⟨?_, ?_, ?_, ?_, ?_, ?_, ?_, ?_⟩
    · simp
    · simp [leaderboardPath]
    · simp
    · simp
    · simp
    · simp
    · simp
    · intro hf q hq
      simp [render, hf, hq]
  · intro h
    have hp : ceilDiv1000 (max 0 (T + 45000 - now)) > 0 := by
      rw [max_eq_right (by omega)]; exact ceilDiv1000_pos (by omega)
    rw [loadGame_started s qs draw T now hT, if_pos hp]
    simp [startTimer, clearRef_timeLeft, clearRef_log, clearRef_nextTimer]
    exact hp

/-- C2, instance: two questions, start time 1000, clock 47000 (46 seconds
later): the redirect is logged and no interval is live. -/
theorem loadGame_redirect_witness :
    (loadGame (GameState.init "ROOM")
        (some ⟨some [⟨"q1", "c", "easy", "?", ["a", "b"], some "A"⟩,
                     ⟨"q2", "c", "easy", "?", ["a", "b"], some "B"⟩], some 1000⟩)
        (fun _ => 0) 47000).log = [Effect.navigate "/leaderboard/ROOM"]
      ∧ (loadGame (GameState.init "ROOM")
        (some ⟨some [⟨"q1", "c", "easy", "?", ["a", "b"], some "A"⟩,
                     ⟨"q2", "c", "easy", "?", ["a", "b"], some "B"⟩], some 1000⟩)
        (fun _ => 0) 47000).live = [] :=
  ⟨((loadGame_redirect (GameState.init "ROOM")
        [⟨"q1", "c", "easy", "?", ["a", "b"], some "A"⟩,
         ⟨"q2", "c", "easy", "?", ["a", "b"], some "B"⟩]
        (fun _ => 0) 1000 47000 (by decide)).1 (by decide)).2.1,
   ((loadGame_redirect (GameState.init "ROOM")
        [⟨"q1", "c", "easy", "?", ["a", "b"], some "A"⟩,
         ⟨"q2", "c", "easy", "?", ["a", "b"], some "B"⟩]
        (fun _ => 0) 1000 47000 (by decide)).1 (by decide)).2.2.1⟩

/-! ## Facts about the tally and the answer map -/

theorem tally_foldl (m : Answers) (qs : List Question) (acc : Int) :
    qs.foldl
        (fun finalScore q =>
          if Answers.get m q.id = q.correct_answer then finalScore + 1 else finalScore) acc
      = acc + ((qs.filter (fun q => decide (Answers.get m q.id = q.correct_answer))).length : Int) := by
  induction qs generalizing acc with
  | nil => simp
  | cons q rest ih =>
    rw [List.foldl_cons, ih]
    by_cases h : Answers.get m q.id = q.correct_answer
    · simp [h, List.filter_cons]; ring
    · simp [h, List.filter_cons]

theorem tally_eq_count (qs : List Question) (m : Answers) :
    tally qs m
      = ((qs.filter (fun q => decide (Answers.get m q.id = q.correct_answer))).length : Int) := by
  unfold tally
  rw [tally_foldl]; simp

theorem Answers.get_set_self (m : Answers) (key value : String) :
    Answers.get (Answers.set m key value) key = some value := by
  induction m with
  | nil => simp [Answers.set, Answers.get]
  | cons kv rest ih =>
    obtain ⟨k, v⟩ := kv
    by_cases h : k = key
    · simp [Answers.set, Answers.get, h]
    · simp [Answers.set, Answers.get, h, ih]

theorem Answers.get_set_other (m : Answers) (key value other : String) (h : other ≠ key) :
    Answers.get (Answers.set m key value) other = Answers.get m other := by
  induction m with
  | nil => simp [Answers.set, Answers.get, Ne.symm h]
  | cons kv rest ih =>
    obtain ⟨k, v⟩ := kv
    by_cases hk : k = key
    · subst hk
      simp [Answers.set, Answers.get, Ne.symm h]
    · by_cases ho : k = other
      · subst ho
        simp [Answers.set, Answers.get, hk]
      · simp [Answers.set, Answers.get, hk, ho, ih]

theorem finishGame_log (s : GameState) (m : Answers) (now : Int) (playerId : Option String) :
    (finishGame s m now playerId).log
      = s.log
        ++ (if strTruthy playerId then
              [Effect.updatePlayer (playerId.getD "") (tally s.questions m)
                ((45 - secondsRemaining s now) * 1000) "finished"]
            else [])
        ++ [Effect.removeItem ("multiplayerGame_" ++ s.roomCode)] := by
  unfold finishGame
  by_cases h : strTruthy playerId = true
  · simp [h]
  · simp [h]

/-! ## C3 -/

/-- C3: in `finishGame`, for every question list and every answer map, the
score of the write (made when a player id is stored) is the number of questions
`q` of the list whose stored answer `map[q.id]` is strictly equal to
`q.correct_answer`; that number is also what the tally loop computes. -/
theorem finishGame_score (s : GameState) (m : Answers) (now : Int) (playerId : Option String) :
    tally s.questions m
        = ((s.questions.filter
              (fun q => decide (Answers.get m q.id = q.correct_answer))).length : Int)
      ∧ (finishGame s m now playerId).log
        = s.log
          ++ (if strTruthy playerId then
                [Effect.updatePlayer (playerId.getD "")
                  ((s.questions.filter
                      (fun q => decide (Answers.get m q.id = q.correct_answer))).length : Int)
                  ((45 - secondsRemaining s now) * 1000) "finished"]
              else [])
          ++ [Effect.removeItem ("multiplayerGame_" ++ s.roomCode)] := by
  refine ⟨tally_eq_count s.questions m, ?_⟩
  rw [finishGame_log, tally_eq_count]

/-! ## C5 -/

/-- C5: in `finishGame` the seconds remaining are
`max(0, ceil((endTime - now) / 1000))` when the end time is set (truthy) and the
displayed `timeLeft` otherwise; with a stored (truthy) player id the one write
is the update of that player's row with the tallied score,
`time_taken = (45 - seconds remaining) * 1000` and status `"finished"`; without
one no write is made. -/
theorem finishGame_write (s : GameState) (m : Answers) (now : Int) :
    (∀ e : Int, s.endTime = some e → e ≠ 0 →
        secondsRemaining s now = max 0 ⌈((e - now : Int) : ℚ) / 1000⌉)
      ∧ (numTruthy s.endTime = false → secondsRemaining s now = s.timeLeft)
      ∧ (∀ pid : String, pid ≠ "" →
          (finishGame s m now (some pid)).log
            = s.log ++ [Effect.updatePlayer pid (tally s.questions m)
                          ((45 - secondsRemaining s now) * 1000) "finished",
                        Effect.removeItem ("multiplayerGame_" ++ s.roomCode)])
      ∧ (∀ playerId : Option String, strTruthy playerId = false →
          (finishGame s m now playerId).log
            = s.log ++ [Effect.removeItem ("multiplayerGame_" ++ s.roomCode)]) := by
  refine ⟨?_, ?_, ?_, ?_⟩
  · intro e he hne
    simp [secondsRemaining, he, numTruthy, hne, ceilDiv1000_eq_ceil]
  · intro h
    simp [secondsRemaining, h]
  · intro pid hpid
    rw [finishGame_log]
    simp [strTruthy, hpid]
  · intro playerId h
    rw [finishGame_log]
    simp [h]

/-- C5, instance: end time 46000, clock 11000, player `p1`, no questions: 35
seconds remain, so `time_taken` is 10000. -/
theorem finishGame_write_witness :
    (finishGame { GameState.init "ROOM" with endTime := some 46000 } [] 11000 (some "p1")).log
      = [Effect.updatePlayer "p1" 0 10000 "finished", Effect.removeItem "multiplayerGame_ROOM"] :=
  (finishGame_write { GameState.init "ROOM" with endTime := some 46000 } [] 11000).2.2.1
    "p1" (by decide)

/-! ## C6 -/

/-- C6: `handleAnswer` maps the question id to the letter in the new answer map
and leaves every other key as it was; when `currentIndex + 1 < questions.length`
the index grows by exactly 1 and nothing of `finishGame` happens (no call is
logged, `playerFinished` keeps its value); otherwise the index is unchanged and
the result is that of `finishGame` called with the new answer map. -/
theorem handleAnswer_spec (s : GameState) (questionId answerLetter : String) (now : Int)
    (playerId : Option String) :
    Answers.get (handleAnswer s questionId answerLetter now playerId).selectedAnswers questionId
        = some answerLetter
      ∧ (∀ other : String, other ≠ questionId →
          Answers.get (handleAnswer s questionId answerLetter now playerId).selectedAnswers other
            = Answers.get s.selectedAnswers other)
      ∧ (s.currentIndex + 1 < s.questions.length →
          (handleAnswer s questionId answerLetter now playerId).currentIndex = s.currentIndex + 1
          ∧ (handleAnswer s questionId answerLetter now playerId).playerFinished = s.playerFinished
          ∧ (handleAnswer s questionId answerLetter now playerId).log = s.log)
      ∧ (¬ s.currentIndex + 1 < s.questions.length →
          (handleAnswer s questionId answerLetter now playerId).currentIndex = s.currentIndex
          ∧ handleAnswer s questionId answerLetter now playerId
            = finishGame
                { s with selectedAnswers := Answers.set s.selectedAnswers questionId answerLetter }
                (Answers.set s.selectedAnswers questionId answerLetter) now playerId
          ∧ Answers.get (Answers.set s.selectedAnswers questionId answerLetter) questionId
            = some answerLetter) := by
  have hsel : (handleAnswer s questionId answerLetter now playerId).selectedAnswers
      = Answers.set s.selectedAnswers questionId answerLetter := by
    unfold handleAnswer finishGame
    by_cases h : s.currentIndex + 1 < s.questions.length
    · simp [h]
    · by_cases hp : strTruthy playerId = true <;> simp [h, hp]
  refine ⟨?_, ?_, ?_, ?_⟩
  · rw [hsel]; exact Answers.get_set_self _ _ _
  · intro other ho
    rw [hsel]; exact Answers.get_set_other _ _ _ _ ho
  · intro h
    simp [handleAnswer, h]
  · intro h
    refine ⟨?_, ?_, Answers.get_set_self _ _ _⟩
    · unfold handleAnswer finishGame
      by_cases hp : strTruthy playerId = true <;> simp [h, hp]
    · simp [handleAnswer, h]

/-- C6, instance: two questions, the first one answered: the index moves to 1. -/
theorem handleAnswer_spec_witness :
    (handleAnswer
        { GameState.init "ROOM" with
            questions := [⟨"q1", "c", "easy", "?", ["a", "b"], some "A"⟩,
                          ⟨"q2", "c", "easy", "?", ["a", "b"], some "B"⟩] }
        "q1" "A" 0 none).currentIndex = 0 + 1 :=
  ((handleAnswer_spec
      { GameState.init "ROOM" with
          questions := [⟨"q1", "c", "easy", "?", ["a", "b"], some "A"⟩,
                        ⟨"q2", "c", "easy", "?", ["a", "b"], some "B"⟩] }
      "q1" "A" 0 none).2.2.1 (by decide)).1

/-! ## Facts about the swap -/

/-- Swapping two positions of a list is reading the list through the
transposition of the two indices. -/
theorem set_set_eq_ofFn {α : Type} (a : List α) (i j : Nat) (hi : i < a.length)
    (hj : j < a.length) :
    (a.set i a[j]).set j a[i]
      = List.ofFn (a.get ∘ (Equiv.swap (⟨i, hi⟩ : Fin a.length) ⟨j, hj⟩)) := by
  apply List.ext_getElem
  · simp
  · intro k h1 h2
    have hk : k < a.length := by simpa using h1
    rw [List.getElem_ofFn, List.getElem_set, List.getElem_set]
    simp only [Function.comp, Equiv.swap_apply_def, List.get_eq_getElem]
    by_cases hkj : j = k
    · subst hkj
      by_cases hij : i = j
      · subst hij; simp
      · simp [Fin.ext_iff, hij, Ne.symm hij]
    · by_cases hki : i = k
      · subst hki
        simp [Fin.ext_iff, hkj]
      · simp [Fin.ext_iff, hkj, hki, Ne.symm hkj, Ne.symm hki]

theorem swapAt_of_lt {α : Type} (a : List α) (i j : Nat) (hi : i < a.length)
    (hj : j < a.length) : swapAt a i j = (a.set i a[j]).set j a[i] := by
  unfold swapAt
  rw [List.getElem?_eq_getElem hi, List.getElem?_eq_getElem hj]

theorem swapAt_perm {α : Type} (a : List α) (i j : Nat) : (swapAt a i j).Perm a := by
  unfold swapAt
  split
  · next x y hx hy =>
    obtain ⟨hi, rfl⟩ := List.getElem?_eq_some.mp hx
    obtain ⟨hj, rfl⟩ := List.getElem?_eq_some.mp hy
    rw [set_set_eq_ofFn a i j hi hj]
    have h := Equiv.Perm.ofFn_comp_perm (Equiv.swap (⟨i, hi⟩ : Fin a.length) ⟨j, hj⟩) a.get
    rwa [List.ofFn_get] at h
  · exact List.Perm.refl a

theorem shuffleLoop_array {α : Type} (draw : (i : Nat) → Fin (i + 1)) (i : Nat)
    (v : ShuffleVars α) : (shuffleLoop draw i v).array = v.array := by
  induction i generalizing v with
  | zero => rfl
  | succ i ih => rw [shuffleLoop, ih]

theorem shuffleLoop_perm {α : Type} (draw : (i : Nat) → Fin (i + 1)) (i : Nat)
    (v : ShuffleVars α) : (shuffleLoop draw i v).shuffled.Perm v.shuffled := by
  induction i generalizing v with
  | zero => exact List.Perm.refl _
  | succ i ih =>
    rw [shuffleLoop]
    exact (ih _).trans (swapAt_perm _ _ _)

/-- Every swap of the loop is a swap of two positions inside the array: with
`i + 1` inside, so is the draw, and the swap exchanges the two elements. -/
theorem shuffleLoop_in_range {α : Type} (draw : (i : Nat) → Fin (i + 1)) (i : Nat)
    (v : ShuffleVars α) (hi : i + 1 < v.shuffled.length) :
    ∃ x y : α, v.shuffled[i + 1]? = some x ∧ v.shuffled[(draw (i + 1)).val]? = some y
      ∧ swapAt v.shuffled (i + 1) (draw (i + 1)).val
          = (v.shuffled.set (i + 1) y).set (draw (i + 1)).val x := by
  have hj : (draw (i + 1)).val < v.shuffled.length := by
    have := (draw (i + 1)).isLt; omega
  exact ⟨v.shuffled[i + 1], v.shuffled[(draw (i + 1)).val], List.getElem?_eq_getElem hi,
    List.getElem?_eq_getElem hj, swapAt_of_lt _ _ _ hi hj⟩

/-! ## C4 -/

/-- C4: `shuffleArray` is a permutation: for every input array and every
sequence of draws (the draw of iteration `i` is an index between `0` and `i`)
the output has the length of the input, the multiset of its elements is that of
the input, hence so is the multiset of the ids (of any key read from the
elements), and the caller's array is as it was when the function returns. -/
theorem shuffleArray_permutation {α : Type} (array : List α)
    (draw : (i : Nat) → Fin (i + 1)) :
    (shuffleArray array draw).length = array.length
      ∧ ((shuffleArray array draw : List α) : Multiset α) = (array : Multiset α)
      ∧ (∀ key : α → String,
          (((shuffleArray array draw).map key : List String) : Multiset String)
            = ((array.map key : List String) : Multiset String))
      ∧ (shuffleArrayVars array draw).array = array := by
  have hperm : (shuffleArray array draw).Perm array := by
    unfold shuffleArray shuffleArrayVars
    exact shuffleLoop_perm draw _ _
  refine ⟨hperm.length_eq, ?_, ?_, ?_⟩
  · exact Multiset.coe_eq_coe.mpr hperm
  · intro key
    exact Multiset.coe_eq_coe.mpr (hperm.map key)
  · unfold shuffleArrayVars
    exact shuffleLoop_array draw _ _

/-! ## Facts about the countdown run -/

theorem navCount_append (l1 l2 : List Effect) :
    navCount (l1 ++ l2) = navCount l1 + navCount l2 := by
  unfold navCount; rw [List.countP_append]

theorem finishGame_timer (s : GameState) (m : Answers) (now : Int) (playerId : Option String) :
    (finishGame s m now playerId).timeLeft = s.timeLeft
      ∧ (finishGame s m now playerId).live = s.live
      ∧ (finishGame s m now playerId).timerRef = s.timerRef
      ∧ (finishGame s m now playerId).roomCode = s.roomCode
      ∧ navCount (finishGame s m now playerId).log = navCount s.log := by
  refine ⟨?_, ?_, ?_, ?_, ?_⟩
  · unfold finishGame; by_cases hp : strTruthy playerId = true <;> simp [hp]
  · unfold finishGame; by_cases hp : strTruthy playerId = true <;> simp [hp]
  · unfold finishGame; by_cases hp : strTruthy playerId = true <;> simp [hp]
  · unfold finishGame; by_cases hp : strTruthy playerId = true <;> simp [hp]
  · rw [finishGame_log, navCount_append, navCount_append]
    by_cases hp : strTruthy playerId = true <;> simp [hp, navCount]

theorem handleAnswer_timer (s : GameState) (q a : String) (now : Int)
    (playerId : Option String) :
    (handleAnswer s q a now playerId).timeLeft = s.timeLeft
      ∧ (handleAnswer s q a now playerId).live = s.live
      ∧ (handleAnswer s q a now playerId).timerRef = s.timerRef
      ∧ (handleAnswer s q a now playerId).roomCode = s.roomCode
      ∧ navCount (handleAnswer s q a now playerId).log = navCount s.log := by
  unfold handleAnswer
  by_cases h : s.currentIndex + 1 < s.questions.length
  · simp [h]
  · simp only [h, if_false]
    exact finishGame_timer _ _ _ _

/-- A cleared interval does not fire. -/
theorem timerTick_dead (s : GameState) (id : Nat) (h : id ∉ s.live) : timerTick id s = s := by
  unfold timerTick; simp [h]

theorem timerTick_gt (s : GameState) (id : Nat) (hlive : id ∈ s.live) (h : 1 < s.timeLeft) :
    timerTick id s = { s with timeLeft := s.timeLeft - 1 } := by
  unfold timerTick
  rw [if_pos hlive, if_neg (by omega)]

theorem timerTick_le (s : GameState) (id : Nat) (href : s.timerRef = some id)
    (hlive : s.live = [id]) (h : s.timeLeft ≤ 1) :
    (timerTick id s).timeLeft = 0
      ∧ (timerTick id s).live = []
      ∧ (timerTick id s).timerRef = some id
      ∧ (timerTick id s).roomCode = s.roomCode
      ∧ (timerTick id s).log = s.log ++ [Effect.navigate ("/leaderboard/" ++ s.roomCode)] := by
  unfold timerTick
  rw [if_pos (by simp [hlive]), if_pos h]
  simp [clearRef, href, clearInterval, hlive, leaderboardPath]

/-- Once no interval is live, no event changes the number of navigations, and
no interval becomes live again. -/
theorem run_dead (events : List GameEvent) (s : GameState) (h : s.live = []) :
    (s.run events).live = [] ∧ navCount (s.run events).log = navCount s.log
      ∧ (s.run events).timeLeft = s.timeLeft := by
  induction events generalizing s with
  | nil => exact ⟨h, rfl, rfl⟩
  | cons e rest ih =>
    have hstep : (s.step e).live = [] ∧ navCount (s.step e).log = navCount s.log
        ∧ (s.step e).timeLeft = s.timeLeft := by
      cases e with
      | tick id => simp [GameState.step, timerTick_dead s id (by simp [h]), h]
      | answer q a now pid =>
        have := handleAnswer_timer s q a now pid
        simp [GameState.step, this, h]
      | finish now pid =>
        have := finishGame_timer s s.selectedAnswers now pid
        simp [GameState.step, this, h]
    have := ih (s.step e) hstep.1
    simp only [GameState.run, List.foldl_cons] at this ⊢
    exact ⟨this.1, this.2.1.trans hstep.2.1, this.2.2.trans hstep.2.2⟩

/-- The run of a game whose only live interval `id` is held by the ref and
whose remaining time is `n ≥ 1`: the navigation count grows by one exactly when
the run holds at least `n` firings of `id`. -/
theorem run_active (events : List GameEvent) (s : GameState) (id : Nat)
    (href : s.timerRef = some id) (hlive : s.live = [id]) (h1 : 1 ≤ s.timeLeft) :
    navCount (s.run events).log
        = navCount s.log + (if s.timeLeft.toNat ≤ ticksOf id events then 1 else 0)
      ∧ (s.run events).timeLeft = max 0 (s.timeLeft - (ticksOf id events : Int))
      ∧ (s.run events).live = (if s.timeLeft.toNat ≤ ticksOf id events then [] else [id]) := by
  induction events generalizing s with
  | nil =>
    have : ¬ s.timeLeft.toNat ≤ 0 := by omega
    simp [GameState.run, ticksOf, this, hlive]
    omega
  | cons e rest ih =>
    simp only [GameState.run, List.foldl_cons]
    cases e with
    | tick id' =>
      by_cases hid : id' = id
      · subst hid
        have hcount : ticksOf id' (GameEvent.tick id' :: rest) = ticksOf id' rest + 1 := by
          simp [ticksOf]
        by_cases hn : 1 < s.timeLeft
        · have hs := timerTick_gt s id' (by simp [hlive]) hn
          have := ih (s.step (GameEvent.tick id')) (by simp [GameState.step, hs, href])
            (by simp [GameState.step, hs, hlive]) (by simp [GameState.step, hs]; omega)
          simp only [GameState.run] at this
          rw [hcount]
          simp only [GameState.step, hs] at this ⊢
          have hiff : (s.timeLeft - 1).toNat ≤ ticksOf id' rest
              ↔ s.timeLeft.toNat ≤ ticksOf id' rest + 1 := by omega
          simp only [hiff] at this
          refine ⟨this.1, ?_, this.2.2⟩
          rw [this.2.1]; push_cast; congr 1; ring
        · have hs := timerTick_le s id' href hlive (by omega)
          have := run_dead rest (s.step (GameEvent.tick id')) (by simp [GameState.step, hs])
          simp only [GameState.run] at this
          rw [hcount]
          have hle : s.timeLeft.toNat ≤ ticksOf id' rest + 1 := by omega
          simp only [GameState.step] at this ⊢
          rw [if_pos hle, if_pos hle, this.2.1, this.2.2, this.1, hs.2.2.2.2, hs.1, navCount_append]
          refine ⟨by simp [navCount], ?_, rfl⟩
          push_cast; omega
      · have hcount : ticksOf id (GameEvent.tick id' :: rest) = ticksOf id rest := by
          simp [ticksOf, hid]
        have hs : timerTick id' s = s := timerTick_dead s id' (by simp [hlive, hid])
        rw [hcount]
        simp only [GameState.step, hs]
        exact ih s href hlive h1
    | answer q a now pid =>
      have hcount : ticksOf id (GameEvent.answer q a now pid :: rest) = ticksOf id rest := by
        simp [ticksOf]
      have hp := handleAnswer_timer s q a now pid
      have := ih (s.step (GameEvent.answer q a now pid))
        (by simp [GameState.step, hp, href]) (by simp [GameState.step, hp, hlive])
        (by simp [GameState.step, hp, h1])
      simp only [GameState.run] at this
      rw [hcount]
      simp only [GameState.step] at this ⊢
      simp only [hp.1, hp.2.2.2.2] at this
      exact this
    | finish now pid =>
      have hcount : ticksOf id (GameEvent.finish now pid :: rest) = ticksOf id rest := by
        simp [ticksOf]
      have hp := finishGame_timer s s.selectedAnswers now pid
      have := ih (s.step (GameEvent.finish now pid))
        (by simp [GameState.step, hp, href]) (by simp [GameState.step, hp, hlive])
        (by simp [GameState.step, hp, h1])
      simp only [GameState.run] at this
      rw [hcount]
      simp only [GameState.step] at this ⊢
      simp only [hp.1, hp.2.2.2.2] at this
      exact this

/-- After `startTimer` the new interval is the only live one, provided the
only interval that was live before is the one held by the ref. -/
theorem startTimer_active (s : GameState) (h0 : ∀ t ∈ s.live, s.timerRef = some t) :
    (startTimer s).timerRef = some s.nextTimer ∧ (startTimer s).live = [s.nextTimer]
      ∧ (startTimer s).timeLeft = s.timeLeft ∧ (startTimer s).log = s.log
      ∧ (startTimer s).roomCode = s.roomCode := by
  have hclear : (clearRef s).live = [] := by
    unfold clearRef
    cases href : s.timerRef with
    | none =>
      cases hl : s.live with
      | nil => simp [hl]
      | cons t rest =>
        have := h0 t (by simp [hl])
        rw [href] at this
        exact absurd this (by simp)
    | some id =>
      simp only [clearInterval]
      rw [List.filter_eq_nil_iff]
      intro t ht
      have := h0 t ht
      rw [href] at this
      simp at this
      simp [this]
  simp [startTimer, hclear, clearRef_nextTimer, clearRef_timeLeft, clearRef_log,
    clearRef_roomCode]

/-! ## C7 -/

/-- C7: the countdown set by `startTimer` from `timeLeft = n ≥ 1` (no interval
other than the one held by the ref being live before). A firing with
`timeLeft > 1` lowers `timeLeft` by exactly 1 and logs nothing; the firing with
`timeLeft ≤ 1` sets `timeLeft` to 0, clears the interval and logs the navigation
to the leaderboard. Over any run of firings, answers and `finishGame` calls the
number of navigations grows by one exactly when the run holds at least `n`
firings, so the navigation is issued once, at the `n`-th firing; from then on no
interval is live and a firing changes nothing; before that the interval is live
with `timeLeft = n - firings`. `finishGame` itself logs no navigation and leaves
`timeLeft`, the ref and the live intervals as they are. -/
theorem startTimer_countdown (s0 : GameState) (h0 : ∀ t ∈ s0.live, s0.timerRef = some t)
    (h1 : 1 ≤ s0.timeLeft) :
    (∀ s : GameState, s.timerRef = some s0.nextTimer → s.live = [s0.nextTimer] →
        (1 < s.timeLeft →
          (timerTick s0.nextTimer s).timeLeft = s.timeLeft - 1
          ∧ (timerTick s0.nextTimer s).log = s.log
          ∧ (timerTick s0.nextTimer s).live = [s0.nextTimer])
        ∧ (s.timeLeft ≤ 1 →
          (timerTick s0.nextTimer s).timeLeft = 0
          ∧ (timerTick s0.nextTimer s).live = []
          ∧ (timerTick s0.nextTimer s).log
              = s.log ++ [Effect.navigate ("/leaderboard/" ++ s.roomCode)]))
      ∧ (∀ events : List GameEvent,
          navCount ((startTimer s0).run events).log
            = navCount s0.log
              + (if s0.timeLeft.toNat ≤ ticksOf s0.nextTimer events then 1 else 0))
      ∧ (∀ events : List GameEvent, s0.timeLeft.toNat ≤ ticksOf s0.nextTimer events →
          ((startTimer s0).run events).live = []
          ∧ ((startTimer s0).run events).timeLeft = 0
          ∧ ∀ id : Nat, timerTick id ((startTimer s0).run events) = (startTimer s0).run events)
      ∧ (∀ events : List GameEvent, ticksOf s0.nextTimer events < s0.timeLeft.toNat →
          ((startTimer s0).run events).live = [s0.nextTimer]
          ∧ ((startTimer s0).run events).timeLeft
              = s0.timeLeft - (ticksOf s0.nextTimer events : Int))
      ∧ (∀ (s : GameState) (m : Answers) (now : Int) (playerId : Option String),
          navCount (finishGame s m now playerId).log = navCount s.log
          ∧ (finishGame s m now playerId).timeLeft = s.timeLeft
          ∧ (finishGame s m now playerId).timerRef = s.timerRef
          ∧ (finishGame s m now playerId).live = s.live) := by
  obtain ⟨href, hlive, htl, hlog, -⟩ := startTimer_active s0 h0
  have hrun := fun events =>
    run_active events (startTimer s0) s0.nextTimer href hlive (by rw [htl]; exact h1)
  simp only [htl, hlog] at hrun
  refine ⟨?_, ?_, ?_, ?_, ?_⟩
  · intro s hr hl
    constructor
    · intro hgt
      rw [timerTick_gt s s0.nextTimer (by simp [hl]) hgt]
      exact ⟨rfl, rfl, hl⟩
    · intro hle
      have := timerTick_le s s0.nextTimer hr hl hle
      exact ⟨this.1, this.2.1, this.2.2.2.2⟩
  · intro events
    exact (hrun events).1
  · intro events hle
    have hdead : ((startTimer s0).run events).live = [] := by
      rw [(hrun events).2.2, if_pos hle]
    refine ⟨hdead, ?_, ?_⟩
    · rw [(hrun events).2.1]
      apply max_eq_left
      omega
    · intro id
      exact timerTick_dead _ id (by simp [hdead])
  · intro events hlt
    refine ⟨?_, ?_⟩
    · rw [(hrun events).2.2, if_neg (by omega)]
    · rw [(hrun events).2.1]
      apply max_eq_right
      omega
  · intro s m now playerId
    have := finishGame_timer s m now playerId
    exact ⟨this.2.2.2.2, this.1, this.2.2.1, this.2.1⟩

/-- C7, instance: a countdown started at 2 that fires three times, with a
`finishGame` call in between, navigates once. -/
theorem startTimer_countdown_witness :
    navCount ((startTimer { GameState.init "ROOM" with timeLeft := 2 }).run
        [GameEvent.tick 1, GameEvent.finish 0 none, GameEvent.tick 1, GameEvent.tick 1]).log
      = 1 :=
  (startTimer_countdown { GameState.init "ROOM" with timeLeft := 2 }
    (by intro t ht; cases ht) (by decide)).2.1
    [GameEvent.tick 1, GameEvent.finish 0 none, GameEvent.tick 1, GameEvent.tick 1]

/-! ## Facts about the leaderboard order -/

theorem timeTakenLe_total (x y : Option Int) : timeTakenLe x y = true ∨ timeTakenLe y x = true := by
  cases x <;> cases y <;> simp [timeTakenLe]
  omega

theorem timeTakenLe_trans (x y z : Option Int) (h1 : timeTakenLe x y = true)
    (h2 : timeTakenLe y z = true) : timeTakenLe x z = true := by
  cases x <;> cases y <;> cases z <;> simp_all [timeTakenLe]
  omega

theorem boardLe_iff (a b : BoardRow) :
    boardLe a b = true
      ↔ b.score < a.score ∨ (a.score = b.score ∧ timeTakenLe a.time_taken b.time_taken = true) := by
  simp [boardLe]

theorem boardLe_total (a b : BoardRow) : boardLe a b = true ∨ boardLe b a = true := by
  rw [boardLe_iff, boardLe_iff]
  rcases lt_trichotomy a.score b.score with h | h | h
  · right; left; exact h
  · rcases timeTakenLe_total a.time_taken b.time_taken with ht | ht
    · left; right; exact ⟨h, ht⟩
    · right; right; exact ⟨h.symm, ht⟩
  · left; left; exact h

theorem boardLe_trans (a b c : BoardRow) (h1 : boardLe a b = true) (h2 : boardLe b c = true) :
    boardLe a c = true := by
  rw [boardLe_iff] at h1 h2 ⊢
  rcases h1 with h1 | ⟨h1, t1⟩ <;> rcases h2 with h2 | ⟨h2, t2⟩
  · left; omega
  · left; omega
  · left; omega
  · right; exact ⟨h1.trans h2, timeTakenLe_trans _ _ _ t1 t2⟩

/-- The sort key of the time column, spelled out: a row may stand before
another of the same score when the other has no time, or both have one and the
first time is not larger. -/
theorem timeTakenLe_iff (x y : Option Int) :
    timeTakenLe x y = true ↔ ∀ t : Int, y = some t → ∃ u : Int, x = some u ∧ u ≤ t := by
  cases x <;> cases y <;> simp [timeTakenLe]

/-- On the keys of `loadBoardRequest` the comparison of the store is the
leaderboard order of the spec on the selected columns. -/
theorem rowLe_loadBoardRequest (roomCode : String) (a b : PlayerRow) :
    rowLe (loadBoardRequest roomCode).order a b = boardLe a.selected b.selected := by
  have hscore : ∀ p : PlayerRow, p.cell "score" = Cell.num p.score := fun p => by
    simp [PlayerRow.cell]
  have htime : ∀ p : PlayerRow, p.cell "time_taken"
      = (match p.time_taken with
         | some t => Cell.num t
         | none => Cell.null) := fun p => by
    simp [PlayerRow.cell]
  simp only [rowLe, loadBoardRequest, rowCompare, keyCompare, hscore, htime, boardLe,
    PlayerRow.selected, cellCompare]
  rcases lt_trichotomy b.score a.score with h | h | h
  · simp [h]
    rfl
  · cases ha : a.time_taken <;> cases hb : b.time_taken
    · simp [h, cellCompare, timeTakenLe]
      rfl
    · simp [h, cellCompare, timeTakenLe]
      rfl
    · simp [h, cellCompare, timeTakenLe]
      rfl
    · rename_i x y
      simp only [h, lt_irrefl, if_false, if_true, cellCompare, timeTakenLe]
      rcases lt_trichotomy x y with hxy | hxy | hxy
      · simp [hxy, le_of_lt hxy]
        rfl
      · simp [hxy]
        rfl
      · simp [hxy, not_lt_of_gt hxy, ne_of_gt hxy, not_le_of_gt hxy]
        rfl
  · have h1 : ¬ b.score < a.score := not_lt_of_gt h
    have h2 : ¬ b.score = a.score := ne_of_gt h
    have h3 : (a.score == b.score) = false := by simpa using ne_of_lt h
    simp [h1, h2, h3]
    rfl

/-- The filter `.eq("room_code", roomCode)` keeps the rows of the room. -/
theorem filter_loadBoardRequest (roomCode : String) (p : PlayerRow) :
    (p.cell (loadBoardRequest roomCode).eqColumn == Cell.text (loadBoardRequest roomCode).eqValue)
      = decide (p.room_code = roomCode) := by
  have hcell : p.cell "room_code" = Cell.text p.room_code := by simp [PlayerRow.cell]
  simp only [loadBoardRequest, hcell]
  by_cases h : p.room_code = roomCode
  · simp [h]
  · have hne : Cell.text p.room_code ≠ Cell.text roomCode := fun hc => h (Cell.text.inj hc)
    simp [h, hne]

/-! ## C8 -/

/-- C8: the board set by `loadBoard` from the response to its query lists
exactly the rows of the room (name, score, time_taken and status of every player
row whose `room_code` is the room code, each row as often as it occurs), ordered
by score descending, ties broken by `time_taken` ascending, a row without
`time_taken` never before a row of the same score that has one; the ordering
relation of the query is total and transitive, and it is the relation just
described. -/
theorem loadBoard_order (s : BoardState) (db : Database) :
    (loadBoard s (some (playersQuery db s.roomCode))).board.Perm
        ((db.players.filter (fun p => decide (p.room_code = s.roomCode))).map
          (fun p =>
            ({ name := p.name, score := p.score, time_taken := p.time_taken,
               status := p.status } : BoardRow)))
      ∧ (loadBoard s (some (playersQuery db s.roomCode))).board.Pairwise
          (fun a b =>
            b.score < a.score
              ∨ (a.score = b.score
                  ∧ ∀ t : Int, b.time_taken = some t → ∃ u : Int, a.time_taken = some u ∧ u ≤ t))
      ∧ (∀ a b : PlayerRow,
          rowLe (loadBoardRequest s.roomCode).order a b = true
            ∨ rowLe (loadBoardRequest s.roomCode).order b a = true)
      ∧ (∀ a b c : PlayerRow,
          rowLe (loadBoardRequest s.roomCode).order a b = true →
          rowLe (loadBoardRequest s.roomCode).order b c = true →
          rowLe (loadBoardRequest s.roomCode).order a c = true)
      ∧ (∀ a b : PlayerRow, rowLe (loadBoardRequest s.roomCode).order a b = true ↔
          (b.score < a.score
              ∨ (a.score = b.score
                  ∧ ∀ t : Int, b.time_taken = some t → ∃ u : Int, a.time_taken = some u ∧ u ≤ t))) := by
  have hiff : ∀ a b : BoardRow, boardLe a b = true ↔
      (b.score < a.score
          ∨ (a.score = b.score
              ∧ ∀ t : Int, b.time_taken = some t → ∃ u : Int, a.time_taken = some u ∧ u ≤ t)) := by
    intro a b
    rw [boardLe_iff, timeTakenLe_iff]
  have htotal : ∀ a b : PlayerRow,
      rowLe (loadBoardRequest s.roomCode).order a b = true
        ∨ rowLe (loadBoardRequest s.roomCode).order b a = true := by
    intro a b
    rw [rowLe_loadBoardRequest, rowLe_loadBoardRequest]
    exact boardLe_total _ _
  have htrans : ∀ a b c : PlayerRow,
      rowLe (loadBoardRequest s.roomCode).order a b = true →
      rowLe (loadBoardRequest s.roomCode).order b c = true →
      rowLe (loadBoardRequest s.roomCode).order a c = true := by
    intro a b c
    rw [rowLe_loadBoardRequest, rowLe_loadBoardRequest, rowLe_loadBoardRequest]
    exact boardLe_trans _ _ _
  have hfilter : (fun p : PlayerRow =>
        p.cell (loadBoardRequest s.roomCode).eqColumn
          == Cell.text (loadBoardRequest s.roomCode).eqValue)
      = (fun p : PlayerRow => decide (p.room_code = s.roomCode)) :=
    funext (filter_loadBoardRequest s.roomCode)
  refine ⟨?_, ?_, htotal, htrans, ?_⟩
  · simp only [loadBoard, Option.getD_some, playersQuery, runPlayersRequest, hfilter]
    exact (List.mergeSort_perm _ _).map _
  · simp only [loadBoard, Option.getD_some, playersQuery, runPlayersRequest]
    have hsorted := @List.sorted_mergeSort PlayerRow (rowLe (loadBoardRequest s.roomCode).order)
      htrans
      (fun a b => by
        rcases htotal a b with h | h <;> simp [h])
      (db.players.filter (fun p =>
        p.cell (loadBoardRequest s.roomCode).eqColumn
          == Cell.text (loadBoardRequest s.roomCode).eqValue))
    rw [List.pairwise_map]
    refine hsorted.imp (fun {a b} h => ?_)
    rw [rowLe_loadBoardRequest] at h
    exact (hiff a.selected b.selected).mp h
  · intro a b
    rw [rowLe_loadBoardRequest]
    exact hiff a.selected b.selected

/-! ## Facts about the rematch updates -/

theorem resetPlayers_idem (roomCode : String) (players : List PlayerRow) :
    resetPlayers roomCode (resetPlayers roomCode players) = resetPlayers roomCode players := by
  unfold resetPlayers
  rw [List.map_map]
  apply List.map_congr_left
  intro p _
  by_cases h : p.room_code = roomCode <;> simp [h]

theorem resetRoom_idem (roomCode : String) (rooms : List RoomRow) :
    resetRoom roomCode (resetRoom roomCode rooms) = resetRoom roomCode rooms := by
  unfold resetRoom
  rw [List.map_map]
  apply List.map_congr_left
  intro r _
  by_cases h : r.code = roomCode <;> simp [h]

/-! ## C9 -/

/-- C9: `handleRematch` on a database state. Afterwards both tables have the
rows they had, position by position: a player row of the room has `score = 0`,
`time_taken = null`, `status = "joined"` and its other fields as before; a room
row with the room code has `status = "waiting"`, `questions = null`,
`game_start_time = null` and its code as before; the rows of every other room
are unchanged; and a second `handleRematch` leaves the database as the first
one left it. -/
theorem handleRematch_spec (s : BoardState) (db : Database) :
    (handleRematch s db).2.players.length = db.players.length
      ∧ (handleRematch s db).2.rooms.length = db.rooms.length
      ∧ (∀ (i : Nat) (p : PlayerRow), db.players[i]? = some p →
          (p.room_code = s.roomCode →
            (handleRematch s db).2.players[i]?
              = some { p with score := 0, time_taken := none, status := "joined" })
          ∧ (p.room_code ≠ s.roomCode → (handleRematch s db).2.players[i]? = some p))
      ∧ (∀ (i : Nat) (r : RoomRow), db.rooms[i]? = some r →
          (r.code = s.roomCode →
            (handleRematch s db).2.rooms[i]?
              = some { r with status := "waiting", questions := none, game_start_time := none })
          ∧ (r.code ≠ s.roomCode → (handleRematch s db).2.rooms[i]? = some r))
      ∧ (handleRematch (handleRematch s db).1 (handleRematch s db).2).2 = (handleRematch s db).2
      ∧ (handleRematch s (handleRematch s db).2).2 = (handleRematch s db).2 := by
  refine ⟨by simp [handleRematch, resetPlayers], by simp [handleRematch, resetRoom], ?_, ?_, ?_, ?_⟩
  · intro i p hp
    constructor
    · intro h
      simp [handleRematch, resetPlayers, List.getElem?_map, hp, h]
    · intro h
      simp [handleRematch, resetPlayers, List.getElem?_map, hp, h]
  · intro i r hr
    constructor
    · intro h
      simp [handleRematch, resetRoom, List.getElem?_map, hr, h]
    · intro h
      simp [handleRematch, resetRoom, List.getElem?_map, hr, h]
  · simp [handleRematch, resetPlayers_idem, resetRoom_idem]
  · simp [handleRematch, resetPlayers_idem, resetRoom_idem]

/-- C9, instance: two players in two rooms and the two rooms; the rematch of
room `AAAA` resets the first player and leaves the second. -/
theorem handleRematch_spec_witness :
    (handleRematch ⟨"AAAA", [], false, []⟩
        ⟨[⟨"p1", "AAAA", "ann", 7, some 12000, "finished"⟩,
          ⟨"p2", "BBBB", "bob", 5, some 9000, "finished"⟩],
         [⟨"AAAA", "active", some [], some 1000⟩, ⟨"BBBB", "active", some [], some 2000⟩]⟩).2.players[0]?
      = some ⟨"p1", "AAAA", "ann", 0, none, "joined"⟩ :=
  ((handleRematch_spec ⟨"AAAA", [], false, []⟩
      ⟨[⟨"p1", "AAAA", "ann", 7, some 12000, "finished"⟩,
        ⟨"p2", "BBBB", "bob", 5, some 9000, "finished"⟩],
       [⟨"AAAA", "active", some [], some 1000⟩, ⟨"BBBB", "active", some [], some 2000⟩]⟩).2.2.1
    0 ⟨"p1", "AAAA", "ann", 7, some 12000, "finished"⟩ rfl).1 rfl

/-! ## Facts about the letter of the correct answer -/

/-- The letter computed from the answer text: either the answer first occurs at
an index `k < 4` of the options and the letter is the `k`-th of A, B, C, D, or
the answer is not among the first four options and there is no letter. -/
theorem letterAt_indexOf (options : List String) (answer : String) :
    (∃ k : Nat, k < 4 ∧ options[k]? = some answer ∧ (∀ j : Nat, j < k → options[j]? ≠ some answer)
        ∧ letterAt (indexOf options answer) = ["A", "B", "C", "D"][k]?)
      ∨ ((∀ k : Nat, k < 4 → options[k]? ≠ some answer)
          ∧ letterAt (indexOf options answer) = none) := by
  unfold indexOf
  cases h : options.findIdx? (fun o => o == answer) with
  | none =>
    right
    rw [List.findIdx?_eq_none_iff] at h
    refine ⟨?_, by simp [letterAt]⟩
    intro k _ hk
    have hmem : answer ∈ options := List.mem_iff_getElem?.mpr ⟨k, hk⟩
    have := h answer hmem
    simp at this
  | some i =>
    rw [List.findIdx?_eq_some_iff_getElem] at h
    obtain ⟨hi, heq, hbefore⟩ := h
    have heq' : options[i] = answer := by simpa using heq
    have hbefore' : ∀ j : Nat, j < i → options[j]? ≠ some answer := by
      intro j hj hk
      have hjl : j < options.length := Nat.lt_trans hj hi
      have := hbefore j hj
      rw [List.getElem?_eq_getElem hjl] at hk
      simp at hk
      simp [hk] at this
    by_cases h4 : i < 4
    · left
      refine ⟨i, h4, ?_, hbefore', ?_⟩
      · rw [List.getElem?_eq_getElem hi, heq']
      · simp [letterAt]
    · right
      refine ⟨fun k hk => hbefore' k (by omega), ?_⟩
      simp only [letterAt, Int.toNat_ofNat]
      rw [if_pos (by omega)]
      exact List.getElem?_eq_none (by simp; omega)

theorem mem_ardQuiz_questions (sortRandom : List ArdQuestion → List ArdQuestion)
    (toLowerCase : String → String) (bank : List ArdQuestion) (difficulty : Option String)
    (now : Int) (item : QuizQuestion)
    (h : item ∈ (ardQuiz sortRandom toLowerCase bank difficulty now).questions) :
    ∃ (index : Nat) (q : ArdQuestion), q ∈ sortRandom bank
      ∧ item = ardItem toLowerCase difficulty index q := by
  simp only [ardQuiz, List.mem_map] at h
  obtain ⟨⟨index, q⟩, hmem, rfl⟩ := h
  exact ⟨index, q, List.mem_of_mem_take (List.snd_mem_of_mem_enum hmem), rfl⟩

/-! ## C10 -/

/-- C10 as stated fails: a bank of one question gives a response of one
question, not ten; and a bank of ten questions whose answer text is not among
the options gives ten questions none of which has a `correct_answer`. -/
theorem ardQuiz_not_always_ten :
    (ardQuiz (fun l => l) (fun x => x) [⟨"q", ["x", "y"], "x"⟩] none 0).questions.length = 1
      ∧ (ardQuiz (fun l => l) (fun x => x) (List.replicate 10 ⟨"q", ["x", "y"], "z"⟩) none
            0).questions.length = 10
      ∧ (ardQuiz (fun l => l) (fun x => x) (List.replicate 10 ⟨"q", ["x", "y"], "z"⟩) none
            0).questions.map (fun item => item.correct_answer) = List.replicate 10 none := by
  refine ⟨rfl, rfl, ?_⟩
  decide

/-- C10, amended: for every bank, every rearrangement of it by the random sort,
every difficulty and clock reading, the ARD response holds `min(10, bank size)`
questions, each with category `"ARD"` and built from a bank question whose
options it carries; its `correct_answer` is the letter at the first index of the
answer text when that index is below 4 and is absent otherwise. So for a bank of
at least 10 questions the response holds exactly 10, and when every bank
question has its answer text among its first four options every
`correct_answer` is one of A, B, C, D, the letter at the index of the answer
text within the options. -/
theorem ardQuiz_spec (sortRandom : List ArdQuestion → List ArdQuestion)
    (toLowerCase : String → String) (bank : List ArdQuestion) (difficulty : Option String)
    (now : Int) (hperm : (sortRandom bank).Perm bank) :
    (ardQuiz sortRandom toLowerCase bank difficulty now).questions.length = min 10 bank.length
      ∧ (∀ item ∈ (ardQuiz sortRandom toLowerCase bank difficulty now).questions,
          item.category = "ARD"
          ∧ ∃ q ∈ bank, item.question = q.question ∧ item.options = q.options
            ∧ ((∃ k : Nat, k < 4 ∧ q.options[k]? = some q.answer
                  ∧ (∀ j : Nat, j < k → q.options[j]? ≠ some q.answer)
                  ∧ item.correct_answer = ["A", "B", "C", "D"][k]?)
                ∨ ((∀ k : Nat, k < 4 → q.options[k]? ≠ some q.answer)
                    ∧ item.correct_answer = none)))
      ∧ (10 ≤ bank.length →
          (ardQuiz sortRandom toLowerCase bank difficulty now).questions.length = 10)
      ∧ ((∀ q ∈ bank, ∃ k : Nat, k < 4 ∧ q.options[k]? = some q.answer) →
          ∀ item ∈ (ardQuiz sortRandom toLowerCase bank difficulty now).questions,
            item.correct_answer ∈ [some "A", some "B", some "C", some "D"]
            ∧ ∃ q ∈ bank, item.options = q.options
              ∧ ∃ k : Nat, k < 4 ∧ q.options[k]? = some q.answer
                ∧ (∀ j : Nat, j < k → q.options[j]? ≠ some q.answer)
                ∧ item.correct_answer = ["A", "B", "C", "D"][k]?) := by
  have hlen : (ardQuiz sortRandom toLowerCase bank difficulty now).questions.length
      = min 10 bank.length := by
    simp [ardQuiz, List.enum_length, hperm.length_eq]
  have hitem : ∀ item ∈ (ardQuiz sortRandom toLowerCase bank difficulty now).questions,
      item.category = "ARD"
      ∧ ∃ q ∈ bank, item.question = q.question ∧ item.options = q.options
        ∧ ((∃ k : Nat, k < 4 ∧ q.options[k]? = some q.answer
              ∧ (∀ j : Nat, j < k → q.options[j]? ≠ some q.answer)
              ∧ item.correct_answer = ["A", "B", "C", "D"][k]?)
            ∨ ((∀ k : Nat, k < 4 → q.options[k]? ≠ some q.answer)
                ∧ item.correct_answer = none)) := by
    intro item hmem
    obtain ⟨index, q, hq, rfl⟩ := mem_ardQuiz_questions _ _ _ _ _ _ hmem
    exact ⟨rfl, q, hperm.mem_iff.mp hq, rfl, rfl, letterAt_indexOf q.options q.answer⟩
  refine ⟨hlen, hitem, ?_, ?_⟩
  · intro h10
    rw [hlen]; omega
  · intro hall item hmem
    obtain ⟨-, q, hq, -, hopt, hcase⟩ := hitem item hmem
    have hk : ∃ k : Nat, k < 4 ∧ q.options[k]? = some q.answer
        ∧ (∀ j : Nat, j < k → q.options[j]? ≠ some q.answer)
        ∧ item.correct_answer = ["A", "B", "C", "D"][k]? := by
      rcases hcase with hk | ⟨hnone, -⟩
      · exact hk
      · obtain ⟨k, hk4, hk⟩ := hall q hq
        exact absurd hk (hnone k hk4)
    refine ⟨?_, q, hq, hopt, hk⟩
    obtain ⟨k, hk4, -, -, hletter⟩ := hk
    rw [hletter]
    interval_cases k <;> simp

/-- C10, instance: a bank of ten copies of one question whose answer is its
third option, left in place by the sort: ten questions. -/
theorem ardQuiz_spec_witness :
    (ardQuiz (fun l => l) (fun x => x) (List.replicate 10 ⟨"q", ["a", "b", "c", "d"], "c"⟩)
        (some "Easy") 0).questions.length = 10 :=
  (ardQuiz_spec (fun l => l) (fun x => x) (List.replicate 10 ⟨"q", ["a", "b", "c", "d"], "c"⟩)
    (some "Easy") 0 (List.Perm.refl _)).2.2.1 (by decide)

/-! ## C14 -/

/-- C14: for every `finishGame` call with an end time `E` set (truthy), a stored
player id and every clock reading `now`, the `time_taken` of the write is an
integer multiple of 1000 that is at most 45000, and it is non-negative exactly
when `now ≥ E - 45000`; under that condition `0 ≤ time_taken ≤ 45000`. -/
theorem finishGame_time_taken_range (s : GameState) (m : Answers) (now E : Int) (pid : String)
    (hE : s.endTime = some E) (hE0 : E ≠ 0) (hpid : pid ≠ "") :
    ∃ t : Int,
      (finishGame s m now (some pid)).log
          = s.log ++ [Effect.updatePlayer pid (tally s.questions m) t "finished",
                      Effect.removeItem ("multiplayerGame_" ++ s.roomCode)]
        ∧ (∃ k : Int, t = k * 1000)
        ∧ t ≤ 45000
        ∧ (0 ≤ t ↔ E - 45000 ≤ now)
        ∧ (E - 45000 ≤ now → 0 ≤ t ∧ t ≤ 45000) := by
  have hsec : secondsRemaining s now = max 0 (ceilDiv1000 (E - now)) := by
    simp [secondsRemaining, hE, numTruthy, hE0]
  refine ⟨(45 - secondsRemaining s now) * 1000, ?_, ⟨45 - secondsRemaining s now, rfl⟩, ?_, ?_, ?_⟩
  · rw [finishGame_log]
    simp [strTruthy, hpid]
  · rw [hsec]
    have := le_max_left 0 (ceilDiv1000 (E - now))
    omega
  · rw [hsec]
    unfold ceilDiv1000
    rcases le_total (-(-(E - now) / 1000)) 0 with h | h
    · rw [max_eq_left h]; omega
    · rw [max_eq_right h]; omega
  · intro hnow
    rw [hsec]
    unfold ceilDiv1000
    rcases le_total (-(-(E - now) / 1000)) 0 with h | h
    · rw [max_eq_left h]; omega
    · rw [max_eq_right h]; omega

/-- C14, instance: end time 46000, clock 11000, player `p1`: the write carries
`time_taken = 10000`. -/
theorem finishGame_time_taken_range_witness :
    ∃ t : Int,
      (finishGame { GameState.init "ROOM" with endTime := some 46000 } [] 11000 (some "p1")).log
          = [] ++ [Effect.updatePlayer "p1" 0 t "finished",
                   Effect.removeItem ("multiplayerGame_" ++ "ROOM")]
        ∧ (∃ k : Int, t = k * 1000)
        ∧ t ≤ 45000
        ∧ (0 ≤ t ↔ (46000 : Int) - 45000 ≤ 11000)
        ∧ ((46000 : Int) - 45000 ≤ 11000 → 0 ≤ t ∧ t ≤ 45000) :=
  finishGame_time_taken_range { GameState.init "ROOM" with endTime := some 46000 } [] 11000 46000
    "p1" rfl (by decide) (by decide)

/-! ## Facts about the question flow -/

theorem finishGame_flow (s : GameState) (m : Answers) (now : Int) (playerId : Option String) :
    (finishGame s m now playerId).questions = s.questions
      ∧ (finishGame s m now playerId).currentIndex = s.currentIndex
      ∧ (finishGame s m now playerId).loading = s.loading := by
  unfold finishGame
  by_cases hp : strTruthy playerId = true <;> simp [hp]

theorem handleAnswer_flow (s : GameState) (q a : String) (now : Int) (playerId : Option String)
    (h : s.currentIndex < s.questions.length) :
    (handleAnswer s q a now playerId).questions = s.questions
      ∧ (handleAnswer s q a now playerId).currentIndex
          < (handleAnswer s q a now playerId).questions.length
      ∧ (handleAnswer s q a now playerId).loading = s.loading := by
  unfold handleAnswer
  by_cases hlt : s.currentIndex + 1 < s.questions.length
  · simp [hlt]
  · simp only [hlt, if_false]
    have := finishGame_flow
      { s with selectedAnswers := Answers.set s.selectedAnswers q a }
      (Answers.set s.selectedAnswers q a) now playerId
    rw [this.1, this.2.1, this.2.2]
    exact ⟨rfl, h, rfl⟩

theorem clickOption_flow (s : GameState) (a : String) (now : Int) (playerId : Option String)
    (h : s.currentIndex < s.questions.length) :
    (clickOption s a now playerId).questions = s.questions
      ∧ (clickOption s a now playerId).currentIndex
          < (clickOption s a now playerId).questions.length
      ∧ (clickOption s a now playerId).loading = s.loading := by
  unfold clickOption
  split
  · exact handleAnswer_flow s _ a now playerId h
  · exact ⟨rfl, h, rfl⟩

theorem answers_flow (calls : List AnswerCall) (s : GameState)
    (h : s.currentIndex < s.questions.length) :
    (s.answers calls).questions = s.questions
      ∧ (s.answers calls).currentIndex < (s.answers calls).questions.length := by
  induction calls generalizing s with
  | nil => exact ⟨rfl, h⟩
  | cons c rest ih =>
    have hstep := handleAnswer_flow s c.questionId c.answerLetter c.now c.playerId h
    have := ih (handleAnswer s c.questionId c.answerLetter c.now c.playerId) hstep.2.1
    simp only [GameState.answers, List.foldl_cons] at this ⊢
    exact ⟨this.1.trans hstep.1, this.2⟩

theorem clicks_flow (calls : List AnswerCall) (s : GameState)
    (h : s.currentIndex < s.questions.length) :
    (s.clicks calls).questions = s.questions
      ∧ (s.clicks calls).currentIndex < (s.clicks calls).questions.length := by
  induction calls generalizing s with
  | nil => exact ⟨rfl, h⟩
  | cons c rest ih =>
    have hstep := clickOption_flow s c.answerLetter c.now c.playerId h
    have := ih (clickOption s c.answerLetter c.now c.playerId) hstep.2.1
    simp only [GameState.clicks, List.foldl_cons] at this ⊢
    exact ⟨this.1.trans hstep.1, this.2⟩

/-- With the index inside the list the lookup hits and the view is not the
"Question not found" text. -/
theorem render_of_lt (s : GameState) (h : s.currentIndex < s.questions.length) :
    (∃ q : Question, s.questions[s.currentIndex]? = some q) ∧ render s ≠ View.notFound := by
  have hq : s.questions[s.currentIndex]? = some s.questions[s.currentIndex] :=
    List.getElem?_eq_getElem h
  refine ⟨⟨_, hq⟩, ?_⟩
  unfold render
  rw [hq]
  split
  · simp
  · split <;> simp

/-- A loaded game without questions shows "Question not found", and a click
changes nothing. -/
theorem clicks_of_empty (calls : List AnswerCall) (s : GameState) (hq : s.questions = [])
    (hl : s.loading = false) (hf : s.playerFinished = false) :
    s.clicks calls = s ∧ render s = View.notFound := by
  have hr : render s = View.notFound := by
    simp [render, hl, hf, hq]
  refine ⟨?_, hr⟩
  induction calls with
  | nil => rfl
  | cons c rest ih =>
    simp only [GameState.clicks, List.foldl_cons] at ih ⊢
    have : clickOption s c.answerLetter c.now c.playerId = s := by
      simp [clickOption, hr]
    rw [this]
    exact ih

/-! ## C15 -/

/-- C15: for a non-empty question list, from `currentIndex = 0` and after any
finite sequence of `handleAnswer` calls (with any arguments, and also when each
call is a click on the rendered card) the question list is the same and
`currentIndex < questions.length`, so the lookup `questions[currentIndex]` hits
and the view is never "Question not found"; for a loaded game that text is the
view exactly when the question list is empty. -/
theorem question_flow_bounds (s0 : GameState) (h0 : s0.currentIndex = 0) :
    (s0.questions ≠ [] → ∀ calls : List AnswerCall,
        (s0.answers calls).questions = s0.questions
        ∧ (s0.answers calls).currentIndex < (s0.answers calls).questions.length
        ∧ (∃ q : Question,
            (s0.answers calls).questions[(s0.answers calls).currentIndex]? = some q)
        ∧ render (s0.answers calls) ≠ View.notFound)
      ∧ (s0.questions ≠ [] → ∀ calls : List AnswerCall,
        (s0.clicks calls).questions = s0.questions
        ∧ (s0.clicks calls).currentIndex < (s0.clicks calls).questions.length
        ∧ (∃ q : Question,
            (s0.clicks calls).questions[(s0.clicks calls).currentIndex]? = some q)
        ∧ render (s0.clicks calls) ≠ View.notFound)
      ∧ (s0.loading = false → s0.playerFinished = false → ∀ calls : List AnswerCall,
        (render (s0.clicks calls) = View.notFound ↔ s0.questions = [])) := by
  have hlt : s0.questions ≠ [] → s0.currentIndex < s0.questions.length := by
    intro hne
    rw [h0]
    exact List.length_pos.mpr hne
  refine ⟨?_, ?_, ?_⟩
  · intro hne calls
    have := answers_flow calls s0 (hlt hne)
    have hr := render_of_lt (s0.answers calls) this.2
    exact ⟨this.1, this.2, hr.1, hr.2⟩
  · intro hne calls
    have := clicks_flow calls s0 (hlt hne)
    have hr := render_of_lt (s0.clicks calls) this.2
    exact ⟨this.1, this.2, hr.1, hr.2⟩
  · intro hl hf calls
    constructor
    · intro hnf
      by_contra hne
      have := clicks_flow calls s0 (hlt hne)
      exact (render_of_lt (s0.clicks calls) this.2).2 hnf
    · intro hq
      have := clicks_of_empty calls s0 hq hl hf
      rw [this.1]
      exact this.2

/-- C15, instance: two questions, three answers: the index stays below 2. -/
theorem question_flow_bounds_witness :
    (({ GameState.init "ROOM" with
          loading := false,
          questions := [⟨"q1", "c", "easy", "?", ["a", "b"], some "A"⟩,
                        ⟨"q2", "c", "easy", "?", ["a", "b"], some "B"⟩] } : GameState).answers
        [⟨"q1", "A", 0, none⟩, ⟨"q2", "B", 0, none⟩, ⟨"q2", "A", 0, none⟩]).currentIndex
      < (({ GameState.init "ROOM" with
          loading := false,
          questions := [⟨"q1", "c", "easy", "?", ["a", "b"], some "A"⟩,
                        ⟨"q2", "c", "easy", "?", ["a", "b"], some "B"⟩] } : GameState).answers
        [⟨"q1", "A", 0, none⟩, ⟨"q2", "B", 0, none⟩, ⟨"q2", "A", 0, none⟩]).questions.length :=
  ((question_flow_bounds
      { GameState.init "ROOM" with
          loading := false,
          questions := [⟨"q1", "c", "easy", "?", ["a", "b"], some "A"⟩,
                        ⟨"q2", "c", "easy", "?", ["a", "b"], some "B"⟩] } rfl).1 (by simp)
    [⟨"q1", "A", 0, none⟩, ⟨"q2", "B", 0, none⟩, ⟨"q2", "A", 0, none⟩]).2.1

/-! ## Facts about the AI path -/

/-- The validation passes exactly on an object whose `questions` property is a
non-empty array. -/
theorem validateQuiz_ok_iff (v : Json) :
    validateQuiz v = Except.ok ()
      ↔ ∃ (fields : List (String × Json)) (qs : List Json),
          v = Json.obj fields ∧ lookupField "questions" fields = some (Json.arr qs) ∧ qs ≠ [] := by
  cases v with
  | obj fields =>
    cases hq : lookupField "questions" fields with
    | none => simp [validateQuiz, Json.questions, hq, jsonTruthy]
    | some q =>
      cases q with
      | arr items =>
        cases items with
        | nil => simp [validateQuiz, Json.questions, hq, jsonTruthy, isArray, arrayLength]
        | cons i rest => simp [validateQuiz, Json.questions, hq, jsonTruthy, isArray, arrayLength]
      | null => simp [validateQuiz, Json.questions, hq, jsonTruthy]
      | bool b => cases b <;> simp [validateQuiz, Json.questions, hq, jsonTruthy, isArray]
      | num n =>
        by_cases hn : n = 0 <;> simp [validateQuiz, Json.questions, hq, jsonTruthy, isArray, hn]
      | str t =>
        by_cases ht : t = "" <;> simp [validateQuiz, Json.questions, hq, jsonTruthy, isArray, ht]
      | obj o => simp [validateQuiz, Json.questions, hq, jsonTruthy, isArray]
  | null => simp [validateQuiz, Json.questions]
  | bool b => simp [validateQuiz, Json.questions, jsonTruthy]
  | num n => simp [validateQuiz, Json.questions, jsonTruthy]
  | str t => simp [validateQuiz, Json.questions, jsonTruthy]
  | arr items => simp [validateQuiz, Json.questions, jsonTruthy]

theorem validateQuiz_error_of_not (v : Json) (h : validateQuiz v ≠ Except.ok ()) :
    ∃ details : String, validateQuiz v = Except.error details := by
  cases hv : validateQuiz v with
  | error details => exact ⟨details, rfl⟩
  | ok u => exact absurd hv h

/-- The statements from the completion to the validated quiz are the same in
the two handlers. -/
theorem functionQuizJson_eq (E : Engine) (quizContent : Option String) :
    functionQuizJson E quizContent = serverQuizJson E quizContent := rfl

theorem serverQuizJson_falsy (E : Engine) (quizContent : Option String)
    (h : strTruthy quizContent = false) :
    serverQuizJson E quizContent = Except.error "No content received from AI" := by
  simp [serverQuizJson, h]

theorem serverQuizJson_parse_error (E : Engine) (content message : String) (hc : content ≠ "")
    (hp : E.jsonParse (cleanContent content) = Except.error message) :
    serverQuizJson E (some content) = Except.error message := by
  simp [serverQuizJson, strTruthy, hc, hp]

theorem serverQuizJson_parsed (E : Engine) (content : String) (v : Json) (hc : content ≠ "")
    (hp : E.jsonParse (cleanContent content) = Except.ok v) :
    serverQuizJson E (some content)
      = match validateQuiz v with
        | Except.error message => Except.error message
        | Except.ok _ => Except.ok v := by
  simp [serverQuizJson, strTruthy, hc, hp]

/-- The response of the standalone server on its AI path. -/
theorem serverHandler_response (E : Engine) (rule : String) (bank : List ArdQuestion) (now : Int)
    (seed : String) (req : QuizRequest) (hARD : req.category ≠ some "ARD")
    (quizContent : Option String) :
    (serverHandler E rule bank now seed req (ProviderOutcome.completion quizContent)).response
      = match serverQuizJson E quizContent with
        | Except.error message => ⟨500, Body.failure "Failed to generate quiz" message⟩
        | Except.ok quizJson => ⟨200, Body.json quizJson⟩ := by
  unfold serverHandler serverTry
  rw [if_neg hARD]
  cases h : serverQuizJson E quizContent <;> simp [h]

/-- The response of the serverless function to a request that is not a
preflight. -/
theorem functionHandler_response (E : Engine) (systemPrompt method seed : String)
    (req : QuizRequest) (hmethod : method ≠ "OPTIONS") (quizContent : Option String) :
    (functionHandler E systemPrompt method seed req
        (ProviderOutcome.completion quizContent)).response
      = match serverQuizJson E quizContent with
        | Except.error message => ⟨500, Body.failure "Failed to generate quiz" message⟩
        | Except.ok quizJson => ⟨200, Body.json quizJson⟩ := by
  unfold functionHandler functionTry
  rw [if_neg hmethod, ← functionQuizJson_eq]
  cases h : functionQuizJson E quizContent <;> simp [h]

theorem serverHandler_throws (E : Engine) (rule : String) (bank : List ArdQuestion) (now : Int)
    (seed : String) (req : QuizRequest) (hARD : req.category ≠ some "ARD") (message : String) :
    (serverHandler E rule bank now seed req (ProviderOutcome.throws message)).response
      = ⟨500, Body.failure "Failed to generate quiz" message⟩ := by
  unfold serverHandler serverTry
  rw [if_neg hARD]

theorem functionHandler_throws (E : Engine) (systemPrompt method seed : String)
    (req : QuizRequest) (hmethod : method ≠ "OPTIONS") (message : String) :
    (functionHandler E systemPrompt method seed req (ProviderOutcome.throws message)).response
      = ⟨500, Body.failure "Failed to generate quiz" message⟩ := by
  unfold functionHandler functionTry
  rw [if_neg hmethod]

theorem serverHandler_calls (E : Engine) (rule : String) (bank : List ArdQuestion) (now : Int)
    (seed : String) (req : QuizRequest) (outcome : ProviderOutcome) :
    (serverHandler E rule bank now seed req outcome).calls
      = if req.category = some "ARD" then [] else [⟨rule, serverUserPrompt E req seed⟩] := by
  unfold serverHandler serverTry
  by_cases h : req.category = some "ARD"
  · simp [h]
  · rw [if_neg h, if_neg h]
    cases outcome with
    | throws message => rfl
    | completion quizContent => cases h : serverQuizJson E quizContent <;> simp [h]

theorem functionHandler_calls (E : Engine) (systemPrompt method seed : String)
    (req : QuizRequest) (outcome : ProviderOutcome) :
    (functionHandler E systemPrompt method seed req outcome).calls
      = if method = "OPTIONS" then [] else [⟨systemPrompt, functionUserPrompt E req seed⟩] := by
  unfold functionHandler functionTry
  by_cases h : method = "OPTIONS"
  · simp [h]
  · rw [if_neg h, if_neg h]
    cases outcome with
    | throws message => rfl
    | completion quizContent => cases h : functionQuizJson E quizContent <;> simp [h]

/-! ## C11 -/

/-- C11: failure handling of the AI path in the standalone server (category
other than `"ARD"`) and in the serverless function (request other than a
preflight). When the provider call throws, when the completion has no content,
when the cleaned content does not parse, and when the parsed value has no
non-empty `questions` array, each handler returns (it does not throw) the
response with status 500 and the body `{ error: "Failed to generate quiz",
details: <message of the error> }`; and for every request the provider is
called at most once. -/
theorem generateQuiz_failure (E : Engine) (rule systemPrompt : String) (bank : List ArdQuestion)
    (now : Int) (seed method : String) (req : QuizRequest) (hARD : req.category ≠ some "ARD")
    (hmethod : method ≠ "OPTIONS") :
    (∀ message : String,
        (serverHandler E rule bank now seed req (ProviderOutcome.throws message)).response
            = ⟨500, Body.failure "Failed to generate quiz" message⟩
          ∧ (functionHandler E systemPrompt method seed req
                (ProviderOutcome.throws message)).response
            = ⟨500, Body.failure "Failed to generate quiz" message⟩)
      ∧ (∀ quizContent : Option String, strTruthy quizContent = false →
          (serverHandler E rule bank now seed req
                (ProviderOutcome.completion quizContent)).response
            = ⟨500, Body.failure "Failed to generate quiz" "No content received from AI"⟩
          ∧ (functionHandler E systemPrompt method seed req
                (ProviderOutcome.completion quizContent)).response
            = ⟨500, Body.failure "Failed to generate quiz" "No content received from AI"⟩)
      ∧ (∀ content message : String, content ≠ "" →
          E.jsonParse (cleanContent content) = Except.error message →
          (serverHandler E rule bank now seed req
                (ProviderOutcome.completion (some content))).response
            = ⟨500, Body.failure "Failed to generate quiz" message⟩
          ∧ (functionHandler E systemPrompt method seed req
                (ProviderOutcome.completion (some content))).response
            = ⟨500, Body.failure "Failed to generate quiz" message⟩)
      ∧ (∀ (content : String) (v : Json), content ≠ "" →
          E.jsonParse (cleanContent content) = Except.ok v →
          (¬ ∃ (fields : List (String × Json)) (qs : List Json),
              v = Json.obj fields ∧ lookupField "questions" fields = some (Json.arr qs)
                ∧ qs ≠ []) →
          ∃ details : String,
            (serverHandler E rule bank now seed req
                  (ProviderOutcome.completion (some content))).response
              = ⟨500, Body.failure "Failed to generate quiz" details⟩
            ∧ (functionHandler E systemPrompt method seed req
                  (ProviderOutcome.completion (some content))).response
              = ⟨500, Body.failure "Failed to generate quiz" details⟩)
      ∧ (∀ (anyReq : QuizRequest) (anyMethod : String) (outcome : ProviderOutcome),
          (serverHandler E rule bank now seed anyReq outcome).calls.length ≤ 1
          ∧ (functionHandler E systemPrompt anyMethod seed anyReq outcome).calls.length ≤ 1) := by
  refine ⟨?_, ?_, ?_, ?_, ?_⟩
  · intro message
    exact ⟨serverHandler_throws E rule bank now seed req hARD message,
      functionHandler_throws E systemPrompt method seed req hmethod message⟩
  · intro quizContent hc
    rw [serverHandler_response E rule bank now seed req hARD,
      functionHandler_response E systemPrompt method seed req hmethod,
      serverQuizJson_falsy E quizContent hc]
    exact ⟨rfl, rfl⟩
  · intro content message hc hp
    rw [serverHandler_response E rule bank now seed req hARD,
      functionHandler_response E systemPrompt method seed req hmethod,
      serverQuizJson_parse_error E content message hc hp]
    exact ⟨rfl, rfl⟩
  · intro content v hc hp hnot
    have hval : validateQuiz v ≠ Except.ok () := fun h => hnot ((validateQuiz_ok_iff v).mp h)
    obtain ⟨details, hd⟩ := validateQuiz_error_of_not v hval
    refine ⟨details, ?_⟩
    rw [serverHandler_response E rule bank now seed req hARD,
      functionHandler_response E systemPrompt method seed req hmethod,
      serverQuizJson_parsed E content v hc hp, hd]
    exact ⟨rfl, rfl⟩
  · intro anyReq anyMethod outcome
    rw [serverHandler_calls, functionHandler_calls]
    constructor
    · split <;> simp
    · split <;> simp

/-- C11, instance: the provider rejects with the message `timeout`. -/
theorem generateQuiz_failure_witness :
    (serverHandler ⟨fun x => x, fun x => x, fun _ => Except.error "Unexpected token", fun l => l⟩
        "rule" [] 0 "1" ⟨some "Science", none⟩ (ProviderOutcome.throws "timeout")).response
      = ⟨500, Body.failure "Failed to generate quiz" "timeout"⟩ :=
  ((generateQuiz_failure
      ⟨fun x => x, fun x => x, fun _ => Except.error "Unexpected token", fun l => l⟩
      "rule" "system" [] 0 "1" "POST" ⟨some "Science", none⟩ (by decide) (by decide)).1
    "timeout").1

/-! ## Facts about the cleaning of the content -/

theorem fenceJson_toList :
    "```json".toList
      = [Char.ofNat 96, Char.ofNat 96, Char.ofNat 96, 'j', 's', 'o', 'n'] := by decide

theorem fence_toList : "```".toList = [Char.ofNat 96, Char.ofNat 96, Char.ofNat 96] := by decide

/-- Outside a fence the replacement copies the characters. -/
theorem stripFences_append (body tail : List Char) (h : ∀ c ∈ body, c ≠ Char.ofNat 96) :
    stripFences 0 (body ++ tail) = body ++ stripFences 0 tail := by
  induction body with
  | nil => rfl
  | cons c rest ih =>
    have hc : c ≠ Char.ofNat 96 := h c (by simp)
    have hc' : (Char.ofNat 96 == c) = false := by
      simp [Ne.symm hc]
    have ih' := ih (fun d hd => h d (by simp [hd]))
    simp only [List.cons_append, stripFences, fenceJson_toList, fence_toList, startsWith, hc',
      Bool.false_and]
    simp only [Bool.false_eq_true, if_false]
    exact congrArg (List.cons c) ih'

theorem dropWhile_append_singleton (p : Char → Bool) (l : List Char) (w : Char) (hw : p w = true) :
    (l ++ [w]).dropWhile p = if l.all p then [] else l.dropWhile p ++ [w] := by
  induction l with
  | nil => simp [List.dropWhile, hw]
  | cons c rest ih =>
    by_cases hc : p c = true
    · simp [List.dropWhile, hc, ih]
    · simp [List.dropWhile, hc]

theorem trim_append_singleton (l : List Char) (w : Char) (hw : isTrimmed w = true) :
    trim (l ++ [w]) = trim l := by
  unfold trim
  rw [dropWhile_append_singleton isTrimmed l w hw]
  by_cases hall : l.all isTrimmed = true
  · have : l.dropWhile isTrimmed = [] := by
      rw [List.dropWhile_eq_nil_iff]
      intro c hc
      exact List.all_eq_true.mp hall c hc
    simp [hall, this]
  · simp [hall, List.dropWhile, hw]

theorem trim_cons (l : List Char) (w : Char) (hw : isTrimmed w = true) :
    trim (w :: l) = trim l := by
  unfold trim
  simp [List.dropWhile, hw]

theorem cleanContent_fenced (body : String) (h : ∀ c ∈ body.toList, c ≠ Char.ofNat 96)
    (ht : trim body.toList = body.toList) :
    cleanContent ("```json\n" ++ body ++ "\n```") = body
      ∧ cleanContent ("```\n" ++ body ++ "\n```") = body := by
  have hnl : isTrimmed '\n' = true := by decide
  have hnb : ('\n' : Char) ≠ Char.ofNat 96 := by decide
  have htail : stripFences 0 "\n```".toList = ['\n'] := by decide
  constructor
  · have hl : ("```json\n" ++ body ++ "\n```").toList
        = Char.ofNat 96 :: Char.ofNat 96 :: Char.ofNat 96 :: 'j' :: 's' :: 'o' :: 'n' :: '\n'
            :: (body.toList ++ "\n```".toList) := by
      simp [String.toList, String.data_append]
    have hinc : includes "```".toList ("```json\n" ++ body ++ "\n```").toList = true := by
      rw [hl, fence_toList]
      simp [includes, startsWith]
    have hstrip : stripFences 0 ("```json\n" ++ body ++ "\n```").toList = body.toList ++ ['\n'] := by
      rw [hl]
      simp only [stripFences, fenceJson_toList, startsWith, beq_self_eq_true, Bool.and_self,
        if_true, List.drop]
      rw [stripFences_append _ _ h, htail]
    unfold cleanContent
    rw [if_pos hinc, hstrip, trim_append_singleton _ _ hnl, ht]
    rfl
  · have hl : ("```\n" ++ body ++ "\n```").toList
        = Char.ofNat 96 :: Char.ofNat 96 :: Char.ofNat 96 :: '\n'
            :: (body.toList ++ "\n```".toList) := by
      simp [String.toList, String.data_append]
    have hinc : includes "```".toList ("```\n" ++ body ++ "\n```").toList = true := by
      rw [hl, fence_toList]
      simp [includes, startsWith]
    have hstrip : stripFences 0 ("```\n" ++ body ++ "\n```").toList
        = '\n' :: (body.toList ++ ['\n']) := by
      rw [hl]
      have hj : (('j' : Char) == '\n') = false := by decide
      have hb : (Char.ofNat 96 == ('\n' : Char)) = false := by decide
      simp only [stripFences, fenceJson_toList, fence_toList, startsWith, beq_self_eq_true,
        Bool.and_self, Bool.true_and, hj, Bool.false_and, if_true, hb, Bool.false_eq_true,
        if_false]
      rw [stripFences_append _ _ h, htail]
    unfold cleanContent
    rw [if_pos hinc, hstrip, trim_cons _ _ hnl, trim_append_singleton _ _ hnl, ht]
    rfl

/-- A content without a fence is parsed as it is. -/
theorem cleanContent_plain (content : String)
    (h : includes "```".toList content.toList = false) : cleanContent content = content := by
  unfold cleanContent
  rw [h]
  rfl

theorem fencedJson_ne_empty (body : String) : "```json\n" ++ body ++ "\n```" ≠ "" := by
  intro hEq
  have := congrArg String.toList hEq
  simp [String.toList, String.data_append] at this

/-- Both handlers answer 200 with the parsed value when the content is
non-empty, the cleaned content parses and the value passes the validation. -/
theorem handlers_success (E : Engine) (rule systemPrompt : String) (bank : List ArdQuestion)
    (now : Int) (seed method : String) (req : QuizRequest) (hARD : req.category ≠ some "ARD")
    (hmethod : method ≠ "OPTIONS") (content : String) (v : Json) (hc : content ≠ "")
    (hp : E.jsonParse (cleanContent content) = Except.ok v)
    (hv : validateQuiz v = Except.ok ()) :
    (serverHandler E rule bank now seed req
          (ProviderOutcome.completion (some content))).response = ⟨200, Body.json v⟩
      ∧ (functionHandler E systemPrompt method seed req
          (ProviderOutcome.completion (some content))).response = ⟨200, Body.json v⟩ := by
  rw [serverHandler_response E rule bank now seed req hARD,
    functionHandler_response E systemPrompt method seed req hmethod,
    serverQuizJson_parsed E content v hc hp, hv]
  exact ⟨rfl, rfl⟩

/-! ## C12 -/

/-- C12: the success condition of the AI path, in the standalone server
(category other than `"ARD"`) and in the serverless function (request other
than a preflight). For every content string of the completion the handler
answers with status 200 exactly when the content is non-empty and the cleaned
content parses to a value whose `questions` property is an array of length at
least 1; the body is then that parsed value; otherwise the status is 500. The
cleaning is the code-fence stripping: a content without a fence is parsed as it
is, and a content that wraps a body (without backticks and without white space
at its ends) in a `json` fence or a bare fence is parsed as that body, so such
a content succeeds when the body parses to a quiz. -/
theorem generateQuiz_success_iff (E : Engine) (rule systemPrompt : String)
    (bank : List ArdQuestion) (now : Int) (seed method : String) (req : QuizRequest)
    (hARD : req.category ≠ some "ARD") (hmethod : method ≠ "OPTIONS") (content : String) :
    ((serverHandler E rule bank now seed req
            (ProviderOutcome.completion (some content))).response.status = 200
        ↔ (content ≠ "" ∧ ∃ v : Json, E.jsonParse (cleanContent content) = Except.ok v
            ∧ ∃ (fields : List (String × Json)) (qs : List Json),
                v = Json.obj fields ∧ lookupField "questions" fields = some (Json.arr qs)
                  ∧ 1 ≤ qs.length))
      ∧ ((functionHandler E systemPrompt method seed req
            (ProviderOutcome.completion (some content))).response.status = 200
        ↔ (content ≠ "" ∧ ∃ v : Json, E.jsonParse (cleanContent content) = Except.ok v
            ∧ ∃ (fields : List (String × Json)) (qs : List Json),
                v = Json.obj fields ∧ lookupField "questions" fields = some (Json.arr qs)
                  ∧ 1 ≤ qs.length))
      ∧ (∀ v : Json, content ≠ "" → E.jsonParse (cleanContent content) = Except.ok v →
          (∃ (fields : List (String × Json)) (qs : List Json),
              v = Json.obj fields ∧ lookupField "questions" fields = some (Json.arr qs)
                ∧ 1 ≤ qs.length) →
          (serverHandler E rule bank now seed req
                (ProviderOutcome.completion (some content))).response = ⟨200, Body.json v⟩
          ∧ (functionHandler E systemPrompt method seed req
                (ProviderOutcome.completion (some content))).response = ⟨200, Body.json v⟩)
      ∧ ((serverHandler E rule bank now seed req
              (ProviderOutcome.completion (some content))).response.status ≠ 200 →
          (serverHandler E rule bank now seed req
              (ProviderOutcome.completion (some content))).response.status = 500)
      ∧ ((functionHandler E systemPrompt method seed req
              (ProviderOutcome.completion (some content))).response.status ≠ 200 →
          (functionHandler E systemPrompt method seed req
              (ProviderOutcome.completion (some content))).response.status = 500)
      ∧ (includes "```".toList content.toList = false → cleanContent content = content)
      ∧ (∀ body : String, (∀ c ∈ body.toList, c ≠ Char.ofNat 96) →
          trim body.toList = body.toList →
          cleanContent ("```json\n" ++ body ++ "\n```") = body
          ∧ cleanContent ("```\n" ++ body ++ "\n```") = body)
      ∧ (∀ (body : String) (v : Json), (∀ c ∈ body.toList, c ≠ Char.ofNat 96) →
          trim body.toList = body.toList →
          E.jsonParse body = Except.ok v →
          (∃ (fields : List (String × Json)) (qs : List Json),
              v = Json.obj fields ∧ lookupField "questions" fields = some (Json.arr qs)
                ∧ 1 ≤ qs.length) →
          (serverHandler E rule bank now seed req
                (ProviderOutcome.completion (some ("```json\n" ++ body ++ "\n```")))).response
              = ⟨200, Body.json v⟩
          ∧ (functionHandler E systemPrompt method seed req
                (ProviderOutcome.completion (some ("```json\n" ++ body ++ "\n```")))).response
              = ⟨200, Body.json v⟩) := by
  have hfun : (functionHandler E systemPrompt method seed req
        (ProviderOutcome.completion (some content))).response
      = (serverHandler E rule bank now seed req
        (ProviderOutcome.completion (some content))).response := by
    rw [serverHandler_response E rule bank now seed req hARD,
      functionHandler_response E systemPrompt method seed req hmethod]
  have hlen : ∀ v : Json,
      (∃ (fields : List (String × Json)) (qs : List Json),
          v = Json.obj fields ∧ lookupField "questions" fields = some (Json.arr qs)
            ∧ 1 ≤ qs.length) ↔ validateQuiz v = Except.ok () := by
    intro v
    rw [validateQuiz_ok_iff]
    constructor
    · rintro ⟨fields, qs, h1, h2, h3⟩
      exact ⟨fields, qs, h1, h2, List.length_pos.mp h3⟩
    · rintro ⟨fields, qs, h1, h2, h3⟩
      exact ⟨fields, qs, h1, h2, List.length_pos.mpr h3⟩
  have hok : ∀ v : Json, content ≠ "" → E.jsonParse (cleanContent content) = Except.ok v →
      validateQuiz v = Except.ok () →
      (serverHandler E rule bank now seed req
          (ProviderOutcome.completion (some content))).response = ⟨200, Body.json v⟩ := by
    intro v hc hp hv
    exact (handlers_success E rule systemPrompt bank now seed method req hARD hmethod content v
      hc hp hv).1
  have hiff : (serverHandler E rule bank now seed req
          (ProviderOutcome.completion (some content))).response.status = 200
      ↔ (content ≠ "" ∧ ∃ v : Json, E.jsonParse (cleanContent content) = Except.ok v
          ∧ ∃ (fields : List (String × Json)) (qs : List Json),
              v = Json.obj fields ∧ lookupField "questions" fields = some (Json.arr qs)
                ∧ 1 ≤ qs.length) := by
    constructor
    · intro hs
      rw [serverHandler_response E rule bank now seed req hARD] at hs
      by_cases hc : content = ""
      · rw [serverQuizJson_falsy E (some content) (by simp [strTruthy, hc])] at hs
        simp at hs
      · refine ⟨hc, ?_⟩
        cases hp : E.jsonParse (cleanContent content) with
        | error message =>
          rw [serverQuizJson_parse_error E content message hc hp] at hs
          simp at hs
        | ok v =>
          refine ⟨v, rfl, ?_⟩
          rw [hlen]
          rw [serverQuizJson_parsed E content v hc hp] at hs
          cases hv : validateQuiz v with
          | error message =>
            rw [hv] at hs
            simp at hs
          | ok u => rfl
    · rintro ⟨hc, v, hp, hq⟩
      rw [hok v hc hp ((hlen v).mp hq)]
  have h500 : (serverHandler E rule bank now seed req
        (ProviderOutcome.completion (some content))).response.status ≠ 200 →
      (serverHandler E rule bank now seed req
        (ProviderOutcome.completion (some content))).response.status = 500 := by
    intro hne
    rw [serverHandler_response E rule bank now seed req hARD] at hne ⊢
    cases hq : serverQuizJson E (some content) with
    | error message => rfl
    | ok v =>
      rw [hq] at hne
      exact absurd rfl hne
  refine ⟨hiff, ?_, ?_, h500, ?_, cleanContent_plain content, cleanContent_fenced, ?_⟩
  · rw [hfun]; exact hiff
  · intro v hc hp hq
    rw [hfun]
    exact ⟨hok v hc hp ((hlen v).mp hq), hok v hc hp ((hlen v).mp hq)⟩
  · rw [hfun]; exact h500
  · intro body v hb ht hp hq
    have hclean := (cleanContent_fenced body hb ht).1
    exact handlers_success E rule systemPrompt bank now seed method req hARD hmethod
      ("```json\n" ++ body ++ "\n```") v
      (fencedJson_ne_empty body)
      (by rw [hclean]; exact hp) ((hlen v).mp hq)

/-- C12, instance: the parser accepts the text `QUIZ` only; a completion that
wraps `QUIZ` in a `json` fence is cleaned to `QUIZ`, parsed, and the parsed
object with one question is sent back as it is. -/
theorem generateQuiz_success_iff_witness :
    (serverHandler
        ⟨fun x => x, fun x => x,
          fun t => if t = "QUIZ" then Except.ok (Json.obj [("questions", Json.arr [Json.str "q"])])
            else Except.error "Unexpected token",
          fun l => l⟩
        "rule" [] 0 "1" ⟨some "Science", none⟩
        (ProviderOutcome.completion (some "```json\nQUIZ\n```"))).response
      = ⟨200, Body.json (Json.obj [("questions", Json.arr [Json.str "q"])])⟩ :=
  ((generateQuiz_success_iff
      ⟨fun x => x, fun x => x,
        fun t => if t = "QUIZ" then Except.ok (Json.obj [("questions", Json.arr [Json.str "q"])])
          else Except.error "Unexpected token",
        fun l => l⟩
      "rule" "system" [] 0 "1" "POST" ⟨some "Science", none⟩ (by decide) (by decide)
      "```json\nQUIZ\n```").2.2.1
    (Json.obj [("questions", Json.arr [Json.str "q"])]) (by decide) rfl
    ⟨[("questions", Json.arr [Json.str "q"])], [Json.str "q"], rfl, rfl, by decide⟩).1

/-! ## Facts about the two user prompts -/

/-- Without a letter of the character class in the category the serverless
function builds the user prompt of the standalone server. -/
theorem functionUserPrompt_eq (E : Engine) (req : QuizRequest) (seed : String)
    (hletters : ∀ c : String, req.category = some c →
      ∀ ch ∈ c.toList, isMongolianLetter ch = false) :
    functionUserPrompt E req seed = serverUserPrompt E req seed := by
  unfold functionUserPrompt serverUserPrompt
  cases hc : req.category with
  | none => simp [strTruthy]
  | some c =>
    have hany : c.toList.any isMongolianLetter = false := by
      rw [List.any_eq_false]
      intro ch hch
      simp [hletters c hc ch hch]
    simp only [Option.getD_some, hany]
    simp

/-- For the category `"Я"` the user prompt of the serverless function is
longer than that of the standalone server, whatever the seed and the
difficulty. -/
theorem userPrompts_differ (E : Engine) (seed : String) (difficulty : Option String) :
    serverUserPrompt E ⟨some "Я", difficulty⟩ seed
      ≠ functionUserPrompt E ⟨some "Я", difficulty⟩ seed := by
  intro h
  have hl := congrArg String.length h
  have hany : "Я".toList.any isMongolianLetter = true := by decide
  simp only [serverUserPrompt, functionUserPrompt, Option.getD_some, hany, if_true,
    String.length_append] at hl
  have hcond : (strTruthy (some "Я") && (some "Я" : Option String) != some "Mixed") = true := by
    decide
  simp only [hcond, if_true, String.length_append] at hl
  have hlen : 0 < "\n\nLANGUAGE REQUIREMENT: The category is Mongolian. Therefore, ALL questions, options, and explanations MUST be in MONGOLIAN.".length := by
    rw [String.length]; simp
  omega

/-! ## C13 -/

/-- C13 as stated fails. For the category `"ARD"` the standalone server calls
no provider and answers 200 with the bank quiz, while the serverless function
sends a prompt about ARD and, the provider rejecting, answers 500. For the
category `"Я"` (a Cyrillic letter) the two user prompts differ: the serverless
function appends the language requirement. -/
theorem handlers_not_equivalent :
    ((serverHandler ⟨fun x => x, fun x => x, fun _ => Except.error "Unexpected token", fun l => l⟩
          "rule" [] 0 "1" ⟨some "ARD", none⟩ (ProviderOutcome.throws "timeout")).calls = []
        ∧ (functionHandler
              ⟨fun x => x, fun x => x, fun _ => Except.error "Unexpected token", fun l => l⟩
              "rule" "POST" "1" ⟨some "ARD", none⟩
              (ProviderOutcome.throws "timeout")).calls.length = 1
        ∧ (serverHandler
              ⟨fun x => x, fun x => x, fun _ => Except.error "Unexpected token", fun l => l⟩
              "rule" [] 0 "1" ⟨some "ARD", none⟩
              (ProviderOutcome.throws "timeout")).response.status = 200
        ∧ (functionHandler
              ⟨fun x => x, fun x => x, fun _ => Except.error "Unexpected token", fun l => l⟩
              "rule" "POST" "1" ⟨some "ARD", none⟩
              (ProviderOutcome.throws "timeout")).response.status = 500)
      ∧ (serverHandler
            ⟨fun x => x, fun x => x, fun _ => Except.error "Unexpected token", fun l => l⟩
            "rule" [] 0 "1" ⟨some "Я", none⟩
            (ProviderOutcome.throws "timeout")).calls.map ProviderCall.user
          ≠ (functionHandler
              ⟨fun x => x, fun x => x, fun _ => Except.error "Unexpected token", fun l => l⟩
              "rule" "POST" "1" ⟨some "Я", none⟩
              (ProviderOutcome.throws "timeout")).calls.map ProviderCall.user := by
  refine ⟨⟨rfl, rfl, rfl, rfl⟩, ?_⟩
  rw [serverHandler_calls, functionHandler_calls]
  rw [if_neg (by decide), if_neg (by decide)]
  intro h
  simp only [List.map_cons, List.map_nil, List.cons.injEq, and_true] at h
  exact userPrompts_differ _ _ _ h

/-- C13, amended: for every request body whose category is not `"ARD"` and
holds none of the letters of the character class of the serverless function
(sent to that function as a request other than a preflight), for every seed and
every behaviour of the provider, the two handlers send the same user prompt and
return the same status and response body. -/
theorem handlers_agree (E : Engine) (rule systemPrompt : String) (bank : List ArdQuestion)
    (now : Int) (seed method : String) (req : QuizRequest) (outcome : ProviderOutcome)
    (hARD : req.category ≠ some "ARD") (hmethod : method ≠ "OPTIONS")
    (hletters : ∀ c : String, req.category = some c →
      ∀ ch ∈ c.toList, isMongolianLetter ch = false) :
    (functionHandler E systemPrompt method seed req outcome).calls.map ProviderCall.user
        = (serverHandler E rule bank now seed req outcome).calls.map ProviderCall.user
      ∧ (functionHandler E systemPrompt method seed req outcome).calls.map ProviderCall.user
        = [serverUserPrompt E req seed]
      ∧ (functionHandler E systemPrompt method seed req outcome).response.status
        = (serverHandler E rule bank now seed req outcome).response.status
      ∧ (functionHandler E systemPrompt method seed req outcome).response.body
        = (serverHandler E rule bank now seed req outcome).response.body := by
  have hcalls : (functionHandler E systemPrompt method seed req outcome).calls.map
      ProviderCall.user = [serverUserPrompt E req seed] := by
    rw [functionHandler_calls, if_neg hmethod, functionUserPrompt_eq E req seed hletters]
    rfl
  have hresp : (functionHandler E systemPrompt method seed req outcome).response
      = (serverHandler E rule bank now seed req outcome).response := by
    cases outcome with
    | throws message =>
      rw [serverHandler_throws E rule bank now seed req hARD,
        functionHandler_throws E systemPrompt method seed req hmethod]
    | completion quizContent =>
      rw [serverHandler_response E rule bank now seed req hARD,
        functionHandler_response E systemPrompt method seed req hmethod]
  refine ⟨?_, hcalls, by rw [hresp], by rw [hresp]⟩
  rw [hcalls, serverHandler_calls, if_neg hARD]
  rfl

/-- C13, instance: the category "Science", a fenced completion that parses to
an object with one question: the serverless function sends the user prompt of
the standalone server. -/
theorem handlers_agree_witness :
    (functionHandler
        ⟨fun x => x, fun x => x,
          fun _ => Except.ok (Json.obj [("questions", Json.arr [Json.str "q"])]), fun l => l⟩
        "system" "POST" "1" ⟨some "Science", none⟩
        (ProviderOutcome.completion (some "quiz"))).calls.map ProviderCall.user
      = (serverHandler
        ⟨fun x => x, fun x => x,
          fun _ => Except.ok (Json.obj [("questions", Json.arr [Json.str "q"])]), fun l => l⟩
        "rule" [] 0 "1" ⟨some "Science", none⟩
        (ProviderOutcome.completion (some "quiz"))).calls.map ProviderCall.user :=
  (handlers_agree
    ⟨fun x => x, fun x => x,
      fun _ => Except.ok (Json.obj [("questions", Json.arr [Json.str "q"])]), fun l => l⟩
    "rule" "system" [] 0 "1" "POST" ⟨some "Science", none⟩
    (ProviderOutcome.completion (some "quiz")) (by decide) (by decide)
    (by
      intro c hc ch hch
      have hcs : c = "Science" := (Option.some.inj hc).symm
      subst hcs
      revert ch
      decide)).1

end QuizzAI
